import Mathlib

/-!
Verification of the configuration-resolution and invocation pipeline of
`config_aider.py` (class `ConfigManager`).

The Python source is shallowly embedded: every string-level operation the
pipeline performs (`str.strip`, `str.lower`, `x in s`, `str.replace`,
`str.startswith`, `str.split(c, 1)`, quote stripping, file-line iteration)
is modelled by an executable Lean function on `String`/`List Char`, and the
stateful parts of `ConfigManager.run_with_config` (temporary-file creation,
the `finally` cleanup ledger, `sys.exit` control flow, `os.execvpe`) are
modelled by explicit state passing over a list of created files, with
failure injection for the fallible I/O operations the source guards with
`try`/`except`.
-/

namespace ConfigAider

/-! ## Python string primitives -/

/-- Python `str.strip()` on a list of characters: drop whitespace from both
ends. -/
def stripChars (l : List Char) : List Char :=
  ((l.dropWhile Char.isWhitespace).reverse.dropWhile Char.isWhitespace).reverse

/-- Python `str.strip()`. -/
def pyStrip (s : String) : String :=
  ⟨stripChars s.data⟩

/-- Python `str.lower()` (ASCII-level, as used by the source on ASCII
configuration text). -/
def pyLower (s : String) : String :=
  ⟨s.data.map Char.toLower⟩

/-- Python `pat in s` on character lists: `pat` occurs as a contiguous
substring of `s`. -/
def containsSub (pat : List Char) : List Char → Bool
  | [] => pat.isEmpty
  | c :: rest => pat.isPrefixOf (c :: rest) || containsSub pat rest

/-- Python `pat in s` for strings. -/
def pyIn (pat s : String) : Bool :=
  containsSub pat.data s.data

/-- Python `s.startswith(pre)` for strings. -/
def pyStartsWith (s pre : String) : Bool :=
  pre.data.isPrefixOf s.data

/-- Python `str.replace` on character lists; the pattern is the nonempty
list `p :: ps`. Every (leftmost, non-overlapping) occurrence of the pattern
is replaced by `rep`. Structural recursion on a fuel argument (initialized
to the input length, which bounds the number of steps; the fuel-exhausted
branch is unreachable for that initialization) keeps the definition
kernel-reducible. -/
def replaceChars (p : Char) (ps rep : List Char) : Nat → List Char → List Char
  | _, [] => []
  | 0, l => l
  | fuel + 1, c :: rest =>
    if (p :: ps).isPrefixOf (c :: rest) then
      rep ++ replaceChars p ps rep fuel (rest.drop ps.length)
    else
      c :: replaceChars p ps rep fuel rest

/-- Python `s.replace(pat, rep)` (the source only ever calls it with a
nonempty pattern; for an empty pattern we return `s` unchanged). -/
def pyReplace (s pat rep : String) : String :=
  match pat.data with
  | [] => s
  | p :: ps => ⟨replaceChars p ps rep.data s.data.length s.data⟩

/-- The characters after the first occurrence of `sep`, if any:
Python `s.split(sep, 1)[1]`. -/
def afterCharSep (sep : Char) : List Char → Option (List Char)
  | [] => none
  | c :: rest => if c = sep then some rest else afterCharSep sep rest

/-- Python `s.split(':', 1)[1]` — everything after the first colon. The
source only evaluates this under a guard that a colon is present; the
default `""` is unreachable there. -/
def afterColon (s : String) : String :=
  match afterCharSep ':' s.data with
  | some r => ⟨r⟩
  | none => ""

/-- Python `s.startswith(('"', "'"))` — the first character is a quote. -/
def startsWithQuote (s : String) : Bool :=
  match s.data with
  | [] => false
  | c :: _ => c = '"' || c = '\''

/-- Python `s.endswith(('"', "'"))` — the last character is a quote. -/
def endsWithQuote (s : String) : Bool :=
  match s.data.getLast? with
  | some c => c = '"' || c = '\''
  | none => false

/-- The quote-stripping idiom of the source:
`if value.startswith(('"', "'")) and value.endswith(('"', "'")): value = value[1:-1]`. -/
def stripQuotes (s : String) : String :=
  if startsWithQuote s && endsWithQuote s then ⟨(s.data.drop 1).dropLast⟩ else s

/-- Split a character list into lines the way Python file iteration
(`for line in f`) does: each line keeps its trailing newline; a final
newline-less fragment is its own line; an empty text yields no lines.
`acc` holds the current line read so far, reversed. -/
def splitLinesChars : List Char → List Char → List (List Char)
  | [], acc => if acc.isEmpty then [] else [acc.reverse]
  | c :: rest, acc =>
    if c = '\n' then (acc.reverse ++ ['\n']) :: splitLinesChars rest []
    else splitLinesChars rest (c :: acc)

/-- Python file-line iteration over a text. -/
def pyLines (s : String) : List String :=
  (splitLinesChars s.data []).map (fun l => ⟨l⟩)

/-- Python truthiness of an optional string (`if not x`): `None` and the
empty string are falsy. -/
def truthy : Option String → Bool
  | none => false
  | some s => !(s == "")

/-- `os.environ` as an association list; `os.environ.get(k)` is the first
binding for `k`. -/
def envLookup (env : List (String × String)) (k : String) : Option String :=
  (env.find? (fun p => p.1 == k)).map (fun p => p.2)

/-! ## Data model

The ephemeral JSON documents are modelled structurally: the JSON text
written by `json.dump` is a function of this data, so claims about file
contents are stated over the data. -/

/-- One entry of the model-settings JSON produced by
`ConfigManager._get_model_settings` (the OpenRouter routing pin):
`{"name": model, "extra_params": {"extra_body": {"provider": {...}}}}`. -/
structure SettingsEntry where
  name : String
  order : List String
  allowFallbacks : Bool
  dataCollection : String
  requireParameters : Bool
deriving DecidableEq, Repr

/-- The single profile dictionary produced by
`ConfigManager._create_bedrock_model_profile`. -/
structure BedrockProfile where
  name : String
  modelId : String
  maxTokens : Nat
  cacheControl : Bool
  acceptsSettings : List String
deriving DecidableEq, Repr

/-- Contents of a temporary file created during a run: the merged YAML text
of the Effective Document, or one of the two structured JSON documents.
`text ""` also stands for a file that was created but whose write failed. -/
inductive FileData where
  | text (s : String)
  | bedrockJson (p : BedrockProfile)
  | settingsJson (entries : List SettingsEntry)
deriving DecidableEq, Repr

/-! ## Component functions (one per `ConfigManager` method) -/

/-- `ConfigManager._substitute_bedrock_arn_placeholders`. When either
placeholder token occurs in the content, both environment values must be
Python-truthy or the method prints an error naming the missing variable and
calls `sys.exit(1)` (modelled by `.error <variable name>`); otherwise both
tokens are textually replaced. -/
def substitutePlaceholders (env : List (String × String)) (content : String) :
    Except String String :=
  let bedrockRegion := envLookup env "BEDROCK_REGION"
  let bedrockAccount := envLookup env "BEDROCK_ACCOUNT"
  if pyIn "<region>" content || pyIn "<account>" content then
    if !truthy bedrockRegion then .error "BEDROCK_REGION"
    else if !truthy bedrockAccount then .error "BEDROCK_ACCOUNT"
    else .ok (pyReplace (pyReplace content "<region>" (bedrockRegion.getD ""))
      "<account>" (bedrockAccount.getD ""))
  else .ok content

/-- Loop body of `ConfigManager._extract_bedrock_model_name`: the first
`model:` line whose (stripped, unquoted) value starts with
`bedrock/converse/`. -/
def extractBedrockModelNameLines : List String → Option String
  | [] => none
  | rawLine :: rest =>
    let strippedLine := pyStrip rawLine
    if pyStartsWith strippedLine "model:" then
      let modelValue := stripQuotes (pyStrip (afterColon strippedLine))
      if pyStartsWith modelValue "bedrock/converse/" then some modelValue
      else extractBedrockModelNameLines rest
    else extractBedrockModelNameLines rest

/-- `ConfigManager._extract_bedrock_model_name` on the profile text. -/
def extractBedrockModelName (content : String) : Option String :=
  extractBedrockModelNameLines (pyLines content)

/-- `ConfigManager._create_bedrock_model_profile`. -/
def createBedrockModelProfile (modelName bedrockRegion bedrockAccount : String) :
    BedrockProfile :=
  let modelId := pyReplace modelName "bedrock/converse/" ""
  let arn :=
    if pyStartsWith modelId "global." then
      "arn:aws:bedrock:" ++ bedrockRegion ++ ":" ++ bedrockAccount ++
        ":inference-profile/" ++ modelId
    else
      "arn:aws:bedrock:" ++ bedrockRegion ++ ":" ++ bedrockAccount ++
        ":inference-profile/global." ++ modelId
  { name := modelName
    modelId := arn
    maxTokens := 64000
    cacheControl := true
    acceptsSettings := ["thinking_tokens"] }

/-- Scanning loop of `ConfigManager._get_model_settings`: the collected
OpenRouter model values. A line contributes its (stripped, unquoted) value
when `"openrouter/"` occurs (case-insensitively) in the stripped line, the
line has a colon, and the value starts with the exact prefix
`"openrouter/"`. -/
def collectModels (content : String) : List String :=
  (pyLines content).filterMap (fun rawLine =>
    let line := pyStrip rawLine
    if pyIn "openrouter/" (pyLower line) then
      if pyIn ":" line then
        let value := stripQuotes (pyStrip (afterColon line))
        if pyStartsWith value "openrouter/" then some value else none
      else none
    else none)

/-- One model-settings entry, as built in `_get_model_settings`. -/
def mkSettingsEntry (onlyProvider model : String) : SettingsEntry :=
  { name := model
    order := [onlyProvider]
    allowFallbacks := false
    dataCollection := "deny"
    requireParameters := true }

/-- The pure part of `ConfigManager._get_model_settings`: `none` when no
provider was requested (Python-falsy `only_provider`) or no model was
collected, otherwise the settings list written to the temp file. -/
def getModelSettings (content : String) (onlyProvider : Option String) :
    Option (List SettingsEntry) :=
  match onlyProvider with
  | none => none
  | some p =>
    if p == "" then none
    else
      match collectModels content with
      | [] => none
      | ms => some (ms.map (mkSettingsEntry p))

/-- Loop body of `ConfigManager._get_api_key_info`: line-by-line scan for
`api-key-env:` and `api-key-provider:` directives; a later directive line
overwrites an earlier one; the provider defaults to `"openai"`. -/
def getApiKeyInfo (content : String) : Option String × String :=
  (pyLines content).foldl
    (fun acc rawLine =>
      let strippedLine := pyStrip rawLine
      if pyStartsWith strippedLine "api-key-env:" then
        (some (pyStrip (afterColon strippedLine)), acc.2)
      else if pyStartsWith strippedLine "api-key-provider:" then
        (acc.1, pyStrip (afterColon strippedLine))
      else acc)
    (none, "openai")

/-- `ConfigManager._get_api_key_value`: a Python-falsy variable name yields
no key; a declared name whose environment value is absent or empty aborts
the run (`.error <name>`, the missing-secret failure). -/
def getApiKeyValue (env : List (String × String)) (apiKeyEnvVar : Option String) :
    Except String (Option String) :=
  match apiKeyEnvVar with
  | none => .ok none
  | some name =>
    if name == "" then .ok none
    else
      match envLookup env name with
      | none => .error name
      | some k => if k == "" then .error name else .ok (some k)

/-- First index of `x` in a list (Python `list.index` under a membership
guard). -/
def firstIndexOf (x : String) : List String → Option Nat
  | [] => none
  | a :: rest =>
    if a = x then some 0 else (firstIndexOf x rest).map (fun i => i + 1)

/-- `ConfigManager._parse_only_provider`: remove the first `--only` and the
token after it; `--only` as the last token is an error (`IndexError`
branch, `sys.exit(1)`). -/
def parseOnlyProvider (extraArgs : List String) :
    Except Unit (Option String × List String) :=
  match firstIndexOf "--only" extraArgs with
  | none => .ok (none, extraArgs)
  | some i =>
    match extraArgs.get? (i + 1) with
    | none => .error ()
    | some p => .ok (some p, extraArgs.take i ++ extraArgs.drop (i + 2))

/-- `ConfigManager._check_for_bedrock_inference_profiles`. -/
def checkForBedrockProfiles (content : String) : Bool :=
  pyIn ".bedrock-inference-profiles.json" content

/-- The profile-filtering loop of `ConfigManager._create_temporary_config`:
keep every line whose stripped form starts with neither `api-key-env:` nor
`api-key-provider:`; in a kept line, when a Bedrock profiles file was
generated, rewrite the `.bedrock-inference-profiles.json` reference to its
path. -/
def filterProfileLines (content : String) (bedrockProfilesPath : Option String) :
    List String :=
  (pyLines content).filterMap (fun line =>
    let strippedLine := pyStrip line
    if pyStartsWith strippedLine "api-key-env:" ||
        pyStartsWith strippedLine "api-key-provider:" then none
    else
      some (match bedrockProfilesPath with
        | some bp =>
          if pyIn ".bedrock-inference-profiles.json" line then
            pyReplace line ".bedrock-inference-profiles.json" bp
          else line
        | none => line))

/-- `ConfigManager._build_aider_command` (Python truthiness of `api_key`
and `model_settings_file` included). -/
def buildAiderCommand (effectiveConfigPath apiKeyProvider : String)
    (apiKey : Option String) (modelSettingsFile : Option String)
    (standardArgs extraArgs : List String) : List String :=
  ["aider-ce", "--tui", "--config", effectiveConfigPath]
    ++ (match apiKey with
      | some k => if k == "" then [] else ["--api-key", apiKeyProvider ++ "=" ++ k]
      | none => [])
    ++ (match modelSettingsFile with
      | some m => if m == "" then [] else ["--model-settings-file", m]
      | none => [])
    ++ standardArgs ++ extraArgs

/-! ## The run model

`ConfigManager.run_with_config` is modelled as a pure function from a run
input (resolved profile, environment, arguments, and a failure-injection
record for the fallible operations guarded by `try`/`except` in the
source) to an outcome. Temporary files are numbered in creation order; the
outcome carries the files still on disk and the total number of files ever
created during the run. -/

/-- Failure injection for the fallible operations of a run: a `json.dump`
failure in `_generate_bedrock_inference_profiles`, a write failure in
`_get_model_settings`, an exception in `_create_temporary_config`'s write
path, a `KeyboardInterrupt` delivered at one of the stage boundaries
inside the `try` block (numbered 0–4), and whether `os.execvpe` finds the
executable. -/
structure Faults where
  bedrockWriteFails : Bool
  msWriteFails : Bool
  tempWriteFails : Bool
  interruptAt : Option Nat
  execFound : Bool
deriving DecidableEq, Repr

/-- The fault-free, successful-handoff injection. -/
def noFaults : Faults :=
  { bedrockWriteFails := false
    msWriteFails := false
    tempWriteFails := false
    interruptAt := none
    execFound := true }

/-- Input to one `run_with_config` call. `profileFound` models
`_resolve_config_path` succeeding; `globalDefaults` is the content of
`GLOBAL_DEFAULTS.yml` when that file exists; `standardArgs` is the token
list the `.aider-standard-repo-args` collaborator yields. -/
structure RunInput where
  profileFound : Bool
  profilePath : String
  profileContent : String
  globalDefaults : Option String
  env : List (String × String)
  extraArgs : List String
  standardArgs : List String
  faults : Faults
deriving DecidableEq, Repr

/-- Why a run exited with status 1 (the argument of the failure reasons
names the missing identifier printed by the source). -/
inductive ExitReason where
  | profileNotFound
  | onlyMissingArg
  | bedrockEnvMissing
  | bedrockModelMissing
  | bedrockWriteError
  | msWriteError
  | missingSecret (envVar : String)
  | placeholderMissing (envVar : String)
  | tempWriteError
  | interrupted
  | execNotFound
deriving DecidableEq, Repr

/-- The result of a run: either the process image is replaced by the
assembled command (`exec`; the `finally` block never runs, so `files` are
the files on disk at the handoff), or control returns via `sys.exit(1)`
after the `finally` cleanup (`exit`). `created` counts every temp file
ever created during the run. -/
inductive Outcome where
  | exec (cmd : List String) (files : List (Nat × FileData)) (created : Nat)
  | exit (reason : ExitReason) (files : List (Nat × FileData)) (created : Nat)
deriving DecidableEq, Repr

/-- The path string of temp file number `n` (`tempfile` names are
process-unique; the numbering fixes them per run). -/
def pathName (n : Nat) : String :=
  "/tmp/ca-tmp" ++ toString n

/-- `os.unlink(p)` for a recorded path, `None`-guarded as in the `finally`
block. -/
def removePath (files : List (Nat × FileData)) : Option Nat → List (Nat × FileData)
  | none => files
  | some n => files.filter (fun e => e.1 ≠ n)

/-- The `finally` block of `run_with_config`: unlink the recorded temp
config, model-settings and Bedrock-profiles paths, in that order. -/
def cleanupLedger (files : List (Nat × FileData))
    (bedrockPath msPath tempPath : Option Nat) : List (Nat × FileData) :=
  removePath (removePath (removePath files tempPath) msPath) bedrockPath

/-- Stage result: on error, the exit reason together with the files on disk
at the raise point (after any cleanup the raising method itself performs)
and the created-count; on success, the new file list, next fresh number,
and the recorded path if a file was created. -/
abbrev StageResult := Except (ExitReason × List (Nat × FileData) × Nat)
  (List (Nat × FileData) × Nat × Option Nat)

/-- `_check_for_bedrock_inference_profiles` plus
`_generate_bedrock_inference_profiles` as called at the top of the `try`
block. The write-failure branch of the source prints and exits without
unlinking the just-created temp file, and the caller has not yet recorded
its path: the file stays on disk. -/
def bedrockStage (env : List (String × String)) (profileContent : String)
    (bedrockWriteFails : Bool) : StageResult :=
  if checkForBedrockProfiles profileContent then
    let bedrockRegion := envLookup env "BEDROCK_REGION"
    let bedrockAccount := envLookup env "BEDROCK_ACCOUNT"
    if !truthy bedrockRegion || !truthy bedrockAccount then
      .error (.bedrockEnvMissing, [], 0)
    else
      match extractBedrockModelName profileContent with
      | none => .error (.bedrockModelMissing, [], 0)
      | some modelName =>
        if bedrockWriteFails then
          .error (.bedrockWriteError, [(0, .text "")], 1)
        else
          .ok ([(0, .bedrockJson (createBedrockModelProfile modelName
            (bedrockRegion.getD "") (bedrockAccount.getD "")))], 1, some 0)
  else .ok ([], 0, none)

/-- `_get_model_settings` as called from the `try` block: on a write
failure the method unlinks its own temp file before exiting, so the file
list is unchanged but the created-count still counts it. -/
def msStage (profileContent : String) (onlyProvider : Option String)
    (msWriteFails : Bool) (files : List (Nat × FileData)) (next : Nat) :
    StageResult :=
  match getModelSettings profileContent onlyProvider with
  | none => .ok (files, next, none)
  | some entries =>
    if msWriteFails then .error (.msWriteError, files, next + 1)
    else .ok (files ++ [(next, .settingsJson entries)], next + 1, some next)

/-- `_create_temporary_config` as called from the `try` block. The temp
file is created first; the Global Defaults layer is substituted and written
(followed by one `"\n"`), then the filtered profile layer is substituted
and written. A placeholder failure raises `SystemExit`, which the method's
`except Exception` does not catch: the partially-written file stays on
disk and its path is never recorded by the caller. An injected write
exception is caught by the method, which unlinks its own file before
exiting. On success the result also carries the effective config path. -/
def tempStage (env : List (String × String)) (globalDefaults : Option String)
    (profileContent profilePath : String) (apiKey : Option String)
    (needsBedrockProfiles : Bool) (tempWriteFails : Bool)
    (files : List (Nat × FileData)) (next : Nat) (bedrockPath : Option Nat) :
    Except (ExitReason × List (Nat × FileData) × Nat)
      (List (Nat × FileData) × Nat × Option Nat × String) :=
  let globalDefaultsExist := globalDefaults.isSome
  if globalDefaultsExist || apiKey.isSome || needsBedrockProfiles then
    let tid := next
    let globalPart : Except String String :=
      match globalDefaults with
      | some g => (substitutePlaceholders env g).map (fun s => s ++ "\n")
      | none => .ok ""
    match globalPart with
    | .error v => .error (.placeholderMissing v, files ++ [(tid, .text "")], next + 1)
    | .ok gpart =>
      let filtered := String.join (filterProfileLines profileContent
        (bedrockPath.map pathName))
      match substitutePlaceholders env filtered with
      | .error v =>
        .error (.placeholderMissing v, files ++ [(tid, .text gpart)], next + 1)
      | .ok ppart =>
        if tempWriteFails then .error (.tempWriteError, files, next + 1)
        else .ok (files ++ [(tid, .text (gpart ++ ppart))], next + 1, some tid,
          pathName tid)
  else .ok (files, next, none, profilePath)

/-- Continuation of the `try` body of `run_with_config` after the API key
has been resolved: interrupt point 3, `_create_temporary_config`,
interrupt point 4, `_read_standard_repo_args`, `_build_aider_command`, and
`_execute_aider`. Every returning exit path runs the `finally` ledger
cleanup over the recorded paths; on success `os.execvpe` replaces the
process image and no cleanup runs. -/
def runAfterKey (inp : RunInput) (extraArgs : List String)
    (apiKeyProvider : String) (apiKey : Option String)
    (files2 : List (Nat × FileData)) (next2 : Nat)
    (bedrockPath msPath : Option Nat) : Outcome :=
  if inp.faults.interruptAt = some 3 then
    .exit .interrupted (cleanupLedger files2 bedrockPath msPath none) next2 else
  match tempStage inp.env inp.globalDefaults inp.profileContent inp.profilePath
    apiKey (checkForBedrockProfiles inp.profileContent)
    inp.faults.tempWriteFails files2 next2 bedrockPath with
  | .error (r, files, created) =>
    .exit r (cleanupLedger files bedrockPath msPath none) created
  | .ok (files3, next3, tempPath, effectiveConfigPath) =>
  if inp.faults.interruptAt = some 4 then
    .exit .interrupted (cleanupLedger files3 bedrockPath msPath tempPath) next3 else
  let cmd := buildAiderCommand effectiveConfigPath apiKeyProvider apiKey
    (msPath.map pathName) inp.standardArgs extraArgs
  if inp.faults.execFound then .exec cmd files3 next3
  else .exit .execNotFound (cleanupLedger files3 bedrockPath msPath tempPath) next3

/-- The `try`/`except`/`finally` body of `run_with_config`, after alias
resolution and `--only` parsing. Interrupt points 0–4 model a
`KeyboardInterrupt` delivered between stages; every returning exit path
runs the `finally` ledger cleanup over the recorded paths. -/
def runTry (inp : RunInput) (onlyProvider : Option String)
    (extraArgs : List String) : Outcome :=
  if inp.faults.interruptAt = some 0 then .exit .interrupted [] 0 else
  match bedrockStage inp.env inp.profileContent inp.faults.bedrockWriteFails with
  | .error (r, files, created) => .exit r files created
  | .ok (files1, next1, bedrockPath) =>
  if inp.faults.interruptAt = some 1 then
    .exit .interrupted (cleanupLedger files1 bedrockPath none none) next1 else
  match msStage inp.profileContent onlyProvider inp.faults.msWriteFails files1 next1 with
  | .error (r, files, created) =>
    .exit r (cleanupLedger files bedrockPath none none) created
  | .ok (files2, next2, msPath) =>
  if inp.faults.interruptAt = some 2 then
    .exit .interrupted (cleanupLedger files2 bedrockPath msPath none) next2 else
  let info := getApiKeyInfo inp.profileContent
  match getApiKeyValue inp.env info.1 with
  | .error v => .exit (.missingSecret v) (cleanupLedger files2 bedrockPath msPath none) next2
  | .ok apiKey =>
    runAfterKey inp extraArgs info.2 apiKey files2 next2 bedrockPath msPath

/-- `ConfigManager.run_with_config`: resolve the profile, parse `--only`
(both before the `try` block, so their failures create and clean no
files), then run the guarded body. -/
def runWithConfig (inp : RunInput) : Outcome :=
  if !inp.profileFound then .exit .profileNotFound [] 0 else
  match parseOnlyProvider inp.extraArgs with
  | .error _ => .exit .onlyMissingArg [] 0
  | .ok (onlyProvider, extraArgs) => runTry inp onlyProvider extraArgs

/-! ## Spec-level definitions

These two definitions follow the specification's words rather than the
source, for comparison with the source-derived definitions. -/

/-- From the spec's words for the RoutingPinner: the values collected are
exactly the key:value lines whose (stripped, unquoted) value begins with
the routing-namespace prefix. This declarative reading drops the
line-level case-insensitive pre-filter of the source; the equivalence with
`collectModels` is proved below. -/
def specCollectedModels (content : String) : List String :=
  (pyLines content).filterMap (fun rawLine =>
    let line := pyStrip rawLine
    match afterCharSep ':' line.data with
    | none => none
    | some r =>
      let value := stripQuotes (pyStrip (String.mk r))
      if pyStartsWith value "openrouter/" then some value else none)

/-- Claim C1's secret-confinement relation between the outcomes of two
runs that differ only in the value of the secret environment variable: the
outcomes have the same shape, identical on-disk files and created-counts,
and identical commands except for the API-key token, which carries the
respective secret. -/
def secretConfined (o₁ o₂ : Outcome) (tok₁ tok₂ : String) : Prop :=
  match o₁, o₂ with
  | .exit r₁ f₁ c₁, .exit r₂ f₂ c₂ => r₁ = r₂ ∧ f₁ = f₂ ∧ c₁ = c₂
  | .exec cmd₁ f₁ c₁, .exec cmd₂ f₂ c₂ =>
    f₁ = f₂ ∧ c₁ = c₂ ∧
    ∃ pre post, cmd₁ = pre ++ ["--api-key", tok₁] ++ post ∧
      cmd₂ = pre ++ ["--api-key", tok₂] ++ post
  | _, _ => False

/-! ## Lemmas about the string primitives -/

theorem containsSub_iff (pat l : List Char) : containsSub pat l = true ↔ pat <:+: l := by
  induction l with
  | nil => simp [containsSub, List.isEmpty_iff, List.infix_nil]
  | cons c rest ih =>
    simp only [containsSub, Bool.or_eq_true, ih, List.isPrefixOf_iff_prefix]
    exact (List.infix_cons_iff).symm

theorem containsSub_false (pat l : List Char) (h : containsSub pat l = false) :
    ¬(pat <:+: l) := by
  intro hc
  rw [(containsSub_iff pat l).mpr hc] at h
  simp at h

theorem afterCharSep_suffix (sep : Char) (l r : List Char)
    (h : afterCharSep sep l = some r) : r <:+ l := by
  induction l with
  | nil => simp [afterCharSep] at h
  | cons c rest ih =>
    simp only [afterCharSep] at h
    by_cases hc : c = sep
    · rw [if_pos hc] at h
      injection h with h
      subst h
      exact List.suffix_cons c rest
    · rw [if_neg hc] at h
      exact (ih h).trans (List.suffix_cons c rest)

theorem replaceChars_not_occur (p : Char) (ps rep : List Char) :
    ∀ (l : List Char) (fuel : Nat), ¬((p :: ps) <:+: l) →
      replaceChars p ps rep fuel l = l := by
  intro l
  induction l with
  | nil =>
    intro fuel _
    cases fuel <;> rfl
  | cons c rest ih =>
    intro fuel h
    cases fuel with
    | zero => rfl
    | succ fuel =>
      have hpre : (p :: ps).isPrefixOf (c :: rest) = false := by
        by_contra hb
        have ht : (p :: ps).isPrefixOf (c :: rest) = true := by
          revert hb
          cases (p :: ps).isPrefixOf (c :: rest) <;> simp
        exact h (((List.isPrefixOf_iff_prefix).mp ht).isInfix)
      rw [replaceChars, hpre]
      simp only [Bool.false_eq_true, if_false, List.cons.injEq, true_and]
      exact ih fuel (fun hr => h (List.infix_cons hr))

theorem replaceChars_strip (p : Char) (ps X : List Char)
    (h : ¬((p :: ps) <:+: X)) :
    replaceChars p ps [] ((ps ++ X).length + 1) (p :: (ps ++ X)) = X := by
  have hpre : (p :: ps).isPrefixOf (p :: (ps ++ X)) = true :=
    (List.isPrefixOf_iff_prefix).mpr ⟨X, rfl⟩
  rw [replaceChars, hpre]
  simp only [if_true, List.nil_append]
  rw [List.drop_left ps X]
  exact replaceChars_not_occur p ps [] X _ h

theorem pyReplace_strip (pre X : String) (hne : pre.data ≠ [])
    (h : containsSub pre.data X.data = false) :
    pyReplace (pre ++ X) pre "" = X := by
  unfold pyReplace
  rcases hd : pre.data with _ | ⟨p, ps⟩
  · exact absurd hd hne
  · have hdata : (pre ++ X).data = p :: (ps ++ X.data) := by
      rw [String.data_append, hd]
      rfl
    simp only [hdata]
    have hnot : ¬((p :: ps) <:+: X.data) := by
      have := containsSub_false pre.data X.data h
      rw [hd] at this
      exact this
    show String.mk (replaceChars p ps "".data (p :: (ps ++ X.data)).length
      (p :: (ps ++ X.data))) = X
    have hlen : (p :: (ps ++ X.data)).length = (ps ++ X.data).length + 1 :=
      List.length_cons p _
    have hdat : "".data = ([] : List Char) := rfl
    rw [hdat, hlen]
    have hstep : replaceChars p ps [] ((ps ++ X.data).length + 1)
        (p :: (ps ++ X.data)) = X.data := by
      have := replaceChars_strip p ps X.data hnot
      exact this
    rw [hstep]

/-! ## Sub-string containment lemmas for the scanning loops -/

theorem stripChars_sub (l : List Char) : stripChars l <:+: l := by
  unfold stripChars
  have h1 : l.dropWhile Char.isWhitespace <:+ l := List.dropWhile_suffix _
  have h2 : (l.dropWhile Char.isWhitespace).reverse.dropWhile Char.isWhitespace <:+
      (l.dropWhile Char.isWhitespace).reverse := List.dropWhile_suffix _
  have h3 : ((l.dropWhile Char.isWhitespace).reverse.dropWhile Char.isWhitespace).reverse <+:
      l.dropWhile Char.isWhitespace := by
    have h4 := (List.reverse_prefix).mpr h2
    rwa [List.reverse_reverse] at h4
  exact h3.isInfix.trans h1.isInfix

theorem stripQuotes_sub (v : String) : (stripQuotes v).data <:+: v.data := by
  unfold stripQuotes
  split
  · show ((v.data.drop 1).dropLast) <:+: v.data
    exact (List.dropLast_prefix _).isInfix.trans (List.drop_suffix 1 v.data).isInfix
  · exact List.infix_rfl

theorem afterCharSep_isSome (sep : Char) (l : List Char) :
    (afterCharSep sep l).isSome = containsSub [sep] l := by
  induction l with
  | nil => rfl
  | cons c rest ih =>
    simp only [afterCharSep, containsSub]
    by_cases hc : c = sep
    · rw [if_pos hc]
      simp [List.isPrefixOf, hc]
    · have hsc : sep ≠ c := fun he => hc he.symm
      simp [hc, hsc, List.isPrefixOf, ih]

theorem pyIn_colon (line : String) :
    pyIn ":" line = (afterCharSep ':' line.data).isSome := by
  rw [pyIn, ← afterCharSep_isSome]

theorem collect_value_sub (line : String) (r : List Char)
    (hc : afterCharSep ':' line.data = some r) :
    (stripQuotes (pyStrip (afterColon line))).data <:+: line.data := by
  have h1 : (afterColon line).data = r := by
    unfold afterColon
    rw [hc]
  have h2 : (pyStrip (afterColon line)).data = stripChars r := by
    show stripChars (afterColon line).data = stripChars r
    rw [h1]
  have h3 : (stripQuotes (pyStrip (afterColon line))).data <:+:
      (pyStrip (afterColon line)).data := stripQuotes_sub _
  rw [h2] at h3
  exact (h3.trans (stripChars_sub r)).trans
    (afterCharSep_suffix ':' line.data r hc).isInfix

theorem prefilter_of_value (line : String) (r : List Char)
    (hc : afterCharSep ':' line.data = some r)
    (hv : pyStartsWith (stripQuotes (pyStrip (afterColon line))) "openrouter/" = true) :
    pyIn "openrouter/" (pyLower line) = true := by
  rw [pyIn, containsSub_iff]
  have hpre : "openrouter/".data <+: (stripQuotes (pyStrip (afterColon line))).data :=
    (List.isPrefixOf_iff_prefix).mp hv
  have hsub : "openrouter/".data <:+: line.data :=
    hpre.isInfix.trans (collect_value_sub line r hc)
  have hmap : ("openrouter/".data.map Char.toLower) <:+: (line.data.map Char.toLower) :=
    hsub.map Char.toLower
  have hfix : "openrouter/".data.map Char.toLower = "openrouter/".data := by decide
  rw [hfix] at hmap
  exact hmap

/-! ## Claim C8 -/

/-- Claim C8: for every cloud model identifier of the form
`bedrock/converse/X` (with `X` a bare id, i.e. the namespace prefix does
not reoccur inside `X`) and region `R`, account `A`: if `X` already begins
with `global.` the synthesized identifier is
`arn:aws:bedrock:R:A:inference-profile/X` (no double prefix), otherwise it
is `arn:aws:bedrock:R:A:inference-profile/global.X`. -/
theorem bedrock_arn_construction (X R A : String)
    (h : containsSub "bedrock/converse/".data X.data = false) :
    (createBedrockModelProfile ("bedrock/converse/" ++ X) R A).modelId =
      if pyStartsWith X "global." then
        "arn:aws:bedrock:" ++ R ++ ":" ++ A ++ ":inference-profile/" ++ X
      else
        "arn:aws:bedrock:" ++ R ++ ":" ++ A ++ ":inference-profile/global." ++ X := by
  unfold createBedrockModelProfile
  rw [pyReplace_strip "bedrock/converse/" X (by decide) h]

/-- Witness for C8 at the spec's own example, plus the no-double-prefix
case. -/
theorem bedrock_arn_construction_witness :
    (createBedrockModelProfile ("bedrock/converse/" ++ "vendor.model-x") "R" "A").modelId =
      "arn:aws:bedrock:R:A:inference-profile/global.vendor.model-x" ∧
    (createBedrockModelProfile ("bedrock/converse/" ++ "global.vendor.model-x") "R" "A").modelId =
      "arn:aws:bedrock:R:A:inference-profile/global.vendor.model-x" := by
  constructor
  · rw [bedrock_arn_construction "vendor.model-x" "R" "A" (by decide)]
    decide
  · rw [bedrock_arn_construction "global.vendor.model-x" "R" "A" (by decide)]
    decide

/-! ## Claim C9 -/

/-- The case-insensitive pre-filter of `_get_model_settings` is redundant
for values that start with the exact lowercase prefix: the collected
values are exactly the spec-level ones. -/
theorem collectModels_eq_spec (content : String) :
    collectModels content = specCollectedModels content := by
  unfold collectModels specCollectedModels
  congr 1
  funext rawLine
  simp only
  cases hc : afterCharSep ':' (pyStrip rawLine).data with
  | none =>
    have hcol : pyIn ":" (pyStrip rawLine) = false := by
      rw [pyIn_colon, hc]
      rfl
    cases hpf : pyIn "openrouter/" (pyLower (pyStrip rawLine)) <;> simp [hpf, hcol]
  | some r =>
    have hcol : pyIn ":" (pyStrip rawLine) = true := by
      rw [pyIn_colon, hc]
      rfl
    have ha : afterColon (pyStrip rawLine) = String.mk r := by
      unfold afterColon
      rw [hc]
    cases hv : pyStartsWith (stripQuotes (pyStrip (afterColon (pyStrip rawLine)))) "openrouter/" with
    | true =>
      have hpf := prefilter_of_value (pyStrip rawLine) r hc hv
      rw [ha] at hv
      simp [hpf, hcol, hv, ha]
    | false =>
      rw [ha] at hv
      cases hpf : pyIn "openrouter/" (pyLower (pyStrip rawLine)) <;>
        simp [hpf, hcol, hv, ha]

theorem mem_specCollected_startsWith (content v : String)
    (h : v ∈ specCollectedModels content) : pyStartsWith v "openrouter/" = true := by
  unfold specCollectedModels at h
  rw [List.mem_filterMap] at h
  obtain ⟨raw, _, hf⟩ := h
  simp only at hf
  revert hf
  cases hc : afterCharSep ':' (pyStrip raw).data with
  | none =>
    intro hf
    simp at hf
  | some r =>
    intro hf
    by_cases hv : pyStartsWith (stripQuotes (pyStrip (String.mk r))) "openrouter/" = true
    · simp only [hv, if_true, Option.some.injEq] at hf
      subst hf
      exact hv
    · simp [hv] at hf

/-- Claim C9 (amended): with a requested target provider, the RoutingPinner
emits one entry per key:value line whose value begins with the exact
lowercase routing-namespace prefix `openrouter/` (the source's
case-insensitive check is only a line-level pre-filter and is redundant:
values are collected case-sensitively); each entry routes exclusively
through the target provider, disallows fallbacks, denies data collection
and requires parameter support; when no such value exists it produces
nothing and raises no error. -/
theorem routing_pinner_spec (content : String) (p : String) (hp : p ≠ "") :
    collectModels content = specCollectedModels content ∧
    (specCollectedModels content = [] → getModelSettings content (some p) = none) ∧
    (∀ entries, getModelSettings content (some p) = some entries →
      entries = (specCollectedModels content).map (mkSettingsEntry p) ∧
      ∀ e ∈ entries, e.order = [p] ∧ e.allowFallbacks = false ∧
        e.dataCollection = "deny" ∧ e.requireParameters = true ∧
        pyStartsWith e.name "openrouter/" = true) := by
  have hpb : (p == "") = false := by
    simp only [beq_eq_false_iff_ne, ne_eq]
    exact hp
  refine ⟨collectModels_eq_spec content, ?_, ?_⟩
  · intro hnil
    unfold getModelSettings
    simp only [hpb, Bool.false_eq_true, if_false]
    rw [collectModels_eq_spec content, hnil]
  · intro entries hent
    unfold getModelSettings at hent
    simp only [hpb, Bool.false_eq_true, if_false] at hent
    rw [collectModels_eq_spec content] at hent
    cases hms : specCollectedModels content with
    | nil =>
      rw [hms] at hent
      simp at hent
    | cons a as =>
      rw [hms] at hent
      simp only [Option.some.injEq] at hent
      constructor
      · exact hent.symm
      · intro e he
        rw [← hent] at he
        rw [List.mem_map] at he
        obtain ⟨v, hv, hev⟩ := he
        have hvs : pyStartsWith v "openrouter/" = true :=
          mem_specCollected_startsWith content v (by rw [hms]; exact hv)
        subst hev
        exact ⟨rfl, rfl, rfl, rfl, hvs⟩

/-- Counterexample to C9 as stated: the value `OpenRouter/foo` begins with
the routing-namespace prefix under case-insensitive comparison, yet the
source collects nothing from the document (the `value.startswith` check is
case-sensitive), so no settings are produced where the claim requires a
one-entry list. -/
theorem routing_pinner_case_counterexample :
    pyStartsWith (pyLower (stripQuotes (pyStrip (afterColon
        (pyStrip "model: OpenRouter/foo"))))) "openrouter/" = true ∧
    getModelSettings "model: OpenRouter/foo\n" (some "DeepSeek") = none := by
  decide

/-- Witness for C9's theorem: the two-line document of the spec's example
and the empty case. -/
theorem routing_pinner_spec_witness :
    getModelSettings "a: 1\n" (some "DeepSeek") = none :=
  (routing_pinner_spec "a: 1\n" "DeepSeek" (by decide)).2.1 (by decide)

/-! ## Shape lemmas for the run stages -/

theorem pathName_ne_empty (n : Nat) : (pathName n == "") = false := by
  simp only [beq_eq_false_iff_ne, ne_eq]
  intro h
  have h2 : ("/tmp/ca-tmp" ++ toString n).data = "".data := congrArg String.data h
  rw [String.data_append, List.append_eq_nil] at h2
  exact absurd h2.1 (by decide)

theorem getApiKeyValue_ok_ne (env : List (String × String)) (v : Option String)
    (k : String) (h : getApiKeyValue env v = .ok (some k)) : (k == "") = false := by
  cases v with
  | none =>
    simp only [getApiKeyValue] at h
    simp at h
  | some name =>
    simp only [getApiKeyValue] at h
    by_cases hn : (name == "") = true
    · rw [if_pos hn] at h
      simp at h
    · rw [if_neg hn] at h
      cases he : envLookup env name with
      | none =>
        rw [he] at h
        simp at h
      | some kv =>
        rw [he] at h
        simp only [] at h
        by_cases hk : (kv == "") = true
        · rw [if_pos hk] at h
          simp at h
        · rw [if_neg hk] at h
          simp only [Except.ok.injEq, Option.some.injEq] at h
          subst h
          rw [Bool.not_eq_true] at hk
          exact hk

theorem bedrockStage_ok (env : List (String × String)) (c : String) (w : Bool)
    (files : List (Nat × FileData)) (next : Nat) (bPath : Option Nat)
    (h : bedrockStage env c w = .ok (files, next, bPath)) :
    (files = [] ∧ next = 0 ∧ bPath = none ∧ checkForBedrockProfiles c = false) ∨
    (∃ d, files = [(0, d)] ∧ next = 1 ∧ bPath = some 0 ∧
      checkForBedrockProfiles c = true) := by
  simp only [bedrockStage] at h
  cases hc : checkForBedrockProfiles c with
  | false =>
    rw [if_neg (by rw [hc]; simp)] at h
    simp only [Except.ok.injEq, Prod.mk.injEq] at h
    obtain ⟨h1, h2, h3⟩ := h
    exact Or.inl ⟨h1.symm, h2.symm, h3.symm, rfl⟩
  | true =>
    rw [if_pos hc] at h
    by_cases htr : (!truthy (envLookup env "BEDROCK_REGION") ||
        !truthy (envLookup env "BEDROCK_ACCOUNT")) = true
    · rw [if_pos htr] at h
      simp at h
    · rw [if_neg htr] at h
      cases hm : extractBedrockModelName c with
      | none =>
        rw [hm] at h
        simp at h
      | some modelName =>
        rw [hm] at h
        simp only [] at h
        cases hw : w with
        | true =>
          rw [if_pos hw] at h
          simp at h
        | false =>
          rw [if_neg (by rw [hw]; simp)] at h
          simp only [Except.ok.injEq, Prod.mk.injEq] at h
          obtain ⟨h1, h2, h3⟩ := h
          exact Or.inr ⟨_, h1.symm, h2.symm, h3.symm, rfl⟩

theorem msStage_ok (c : String) (op : Option String) (w : Bool)
    (files : List (Nat × FileData)) (next : Nat)
    (files' : List (Nat × FileData)) (next' : Nat) (mPath : Option Nat)
    (h : msStage c op w files next = .ok (files', next', mPath)) :
    (files' = files ∧ next' = next ∧ mPath = none ∧
      getModelSettings c op = none) ∨
    (∃ entries, files' = files ++ [(next, .settingsJson entries)] ∧
      next' = next + 1 ∧ mPath = some next ∧
      getModelSettings c op = some entries) := by
  simp only [msStage] at h
  cases hg : getModelSettings c op with
  | none =>
    rw [hg] at h
    simp only [Except.ok.injEq, Prod.mk.injEq] at h
    obtain ⟨h1, h2, h3⟩ := h
    exact Or.inl ⟨h1.symm, h2.symm, h3.symm, rfl⟩
  | some entries =>
    rw [hg] at h
    simp only [] at h
    cases hw : w with
    | true =>
      rw [if_pos hw] at h
      simp at h
    | false =>
      rw [if_neg (by rw [hw]; simp)] at h
      simp only [Except.ok.injEq, Prod.mk.injEq] at h
      obtain ⟨h1, h2, h3⟩ := h
      exact Or.inr ⟨entries, h1.symm, h2.symm, h3.symm, rfl⟩

theorem tempStage_ok (env : List (String × String)) (g : Option String)
    (c pp : String) (apiKey : Option String) (nb w : Bool)
    (files : List (Nat × FileData)) (next : Nat) (bPath : Option Nat)
    (files' : List (Nat × FileData)) (next' : Nat) (tPath : Option Nat)
    (eff : String)
    (h : tempStage env g c pp apiKey nb w files next bPath =
      .ok (files', next', tPath, eff)) :
    (files' = files ∧ next' = next ∧ tPath = none ∧ eff = pp ∧
      (g.isSome || apiKey.isSome || nb) = false) ∨
    (∃ content, files' = files ++ [(next, .text content)] ∧ next' = next + 1 ∧
      tPath = some next ∧ eff = pathName next ∧
      (g.isSome || apiKey.isSome || nb) = true) := by
  simp only [tempStage] at h
  cases hcond : (g.isSome || apiKey.isSome || nb) with
  | false =>
    rw [if_neg (by rw [hcond]; simp)] at h
    simp only [Except.ok.injEq, Prod.mk.injEq] at h
    obtain ⟨h1, h2, h3, h4⟩ := h
    exact Or.inl ⟨h1.symm, h2.symm, h3.symm, h4.symm, rfl⟩
  | true =>
    rw [if_pos hcond] at h
    cases hg : (match g with
      | some gc => Except.map (fun s => s ++ "\n") (substitutePlaceholders env gc)
      | none => Except.ok "") with
    | error v =>
      rw [hg] at h
      simp at h
    | ok gpart =>
      rw [hg] at h
      cases hp : substitutePlaceholders env
          (String.join (filterProfileLines c (bPath.map pathName))) with
      | error v =>
        rw [hp] at h
        simp at h
      | ok ppart =>
        rw [hp] at h
        simp only [] at h
        cases hw : w with
        | true =>
          rw [if_pos hw] at h
          simp at h
        | false =>
          rw [if_neg (by rw [hw]; simp)] at h
          simp only [Except.ok.injEq, Prod.mk.injEq] at h
          obtain ⟨h1, h2, h3, h4⟩ := h
          exact Or.inr ⟨gpart ++ ppart, h1.symm, h2.symm, h3.symm, h4.symm, rfl⟩

/-! ## The shape of a successful hand-off -/

theorem runTry_exec_shape (inp : RunInput) (op : Option String) (e2 : List String)
    (cmd : List String) (files : List (Nat × FileData)) (created : Nat)
    (h : runTry inp op e2 = .exec cmd files created) :
    ∃ apiKey msPath effectivePath,
      getApiKeyValue inp.env (getApiKeyInfo inp.profileContent).1 = .ok apiKey ∧
      (msPath = none ↔ getModelSettings inp.profileContent op = none) ∧
      cmd = buildAiderCommand effectivePath (getApiKeyInfo inp.profileContent).2
        apiKey (msPath.map pathName) inp.standardArgs e2 := by
  simp only [runTry] at h
  by_cases h0 : inp.faults.interruptAt = some 0
  · rw [if_pos h0] at h
    simp at h
  · rw [if_neg h0] at h
    cases hbs : bedrockStage inp.env inp.profileContent inp.faults.bedrockWriteFails with
    | error e =>
      obtain ⟨r, fs, cr⟩ := e
      rw [hbs] at h
      simp only [] at h
      simp at h
    | ok res =>
      obtain ⟨files1, next1, bedrockPath⟩ := res
      rw [hbs] at h
      simp only [] at h
      by_cases h1 : inp.faults.interruptAt = some 1
      · rw [if_pos h1] at h
        simp at h
      · rw [if_neg h1] at h
        cases hms : msStage inp.profileContent op inp.faults.msWriteFails files1 next1 with
        | error e =>
          obtain ⟨r, fs, cr⟩ := e
          rw [hms] at h
          simp only [] at h
          simp at h
        | ok res2 =>
          obtain ⟨files2, next2, msPath⟩ := res2
          rw [hms] at h
          simp only [] at h
          by_cases h2 : inp.faults.interruptAt = some 2
          · rw [if_pos h2] at h
            simp at h
          · rw [if_neg h2] at h
            cases hkv : getApiKeyValue inp.env (getApiKeyInfo inp.profileContent).1 with
            | error v =>
              rw [hkv] at h
              simp only [] at h
              simp at h
            | ok apiKey =>
              rw [hkv] at h
              simp only [] at h
              simp only [runAfterKey] at h
              by_cases h3 : inp.faults.interruptAt = some 3
              · rw [if_pos h3] at h
                simp at h
              · rw [if_neg h3] at h
                cases hts : tempStage inp.env inp.globalDefaults inp.profileContent
                    inp.profilePath apiKey (checkForBedrockProfiles inp.profileContent)
                    inp.faults.tempWriteFails files2 next2 bedrockPath with
                | error e =>
                  obtain ⟨r, fs, cr⟩ := e
                  rw [hts] at h
                  simp only [] at h
                  simp at h
                | ok res3 =>
                  obtain ⟨files3, next3, tempPath, eff⟩ := res3
                  rw [hts] at h
                  simp only [] at h
                  by_cases h4 : inp.faults.interruptAt = some 4
                  · rw [if_pos h4] at h
                    simp at h
                  · rw [if_neg h4] at h
                    by_cases hex : inp.faults.execFound = true
                    · rw [if_pos hex] at h
                      simp only [Outcome.exec.injEq] at h
                      obtain ⟨hcmd, hfiles, hcr⟩ := h
                      have hiff : (msPath = none ↔
                          getModelSettings inp.profileContent op = none) := by
                        rcases msStage_ok _ _ _ _ _ _ _ _ hms with
                          ⟨_, _, hm, hg⟩ | ⟨entries, _, _, hm, hg⟩
                        · rw [hm, hg]
                          simp
                        · rw [hm, hg]
                          simp
                      exact ⟨apiKey, msPath, eff, rfl, hiff, hcmd.symm⟩
                    · rw [if_neg hex] at h
                      simp at h

theorem runWithConfig_exec_shape (inp : RunInput) (cmd : List String)
    (files : List (Nat × FileData)) (created : Nat)
    (h : runWithConfig inp = .exec cmd files created) :
    ∃ onlyProvider extra2 apiKey msPath effectivePath,
      parseOnlyProvider inp.extraArgs = .ok (onlyProvider, extra2) ∧
      getApiKeyValue inp.env (getApiKeyInfo inp.profileContent).1 = .ok apiKey ∧
      (msPath = none ↔ getModelSettings inp.profileContent onlyProvider = none) ∧
      cmd = buildAiderCommand effectivePath (getApiKeyInfo inp.profileContent).2
        apiKey (msPath.map pathName) inp.standardArgs extra2 := by
  simp only [runWithConfig] at h
  by_cases hf : inp.profileFound = true
  · rw [if_neg (by simp [hf])] at h
    cases hpo : parseOnlyProvider inp.extraArgs with
    | error e =>
      rw [hpo] at h
      simp only [] at h
      simp at h
    | ok pr =>
      obtain ⟨op, e2⟩ := pr
      rw [hpo] at h
      simp only [] at h
      obtain ⟨apiKey, msPath, eff, hkv, hiff, hcmd⟩ :=
        runTry_exec_shape inp op e2 cmd files created h
      exact ⟨op, e2, apiKey, msPath, eff, rfl, hkv, hiff, hcmd⟩
  · rw [if_pos (by revert hf; cases inp.profileFound <;> simp)] at h
    simp at h

/-! ## Claim C7 -/

/-- Claim C7: the invocation command is the ordered token sequence
`base, --tui, --config, <effective document path>`, then the API-key flag
pair exactly when a secret was resolved, then the model-settings flag pair
exactly when a settings file was synthesized, then the standard repo-args
tokens, then all user pass-through tokens verbatim and last. -/
theorem command_token_order (inp : RunInput) (cmd : List String)
    (files : List (Nat × FileData)) (created : Nat)
    (h : runWithConfig inp = .exec cmd files created) :
    ∃ onlyProvider extra2 apiKey msPath effectivePath,
      parseOnlyProvider inp.extraArgs = .ok (onlyProvider, extra2) ∧
      getApiKeyValue inp.env (getApiKeyInfo inp.profileContent).1 = .ok apiKey ∧
      (msPath = none ↔ getModelSettings inp.profileContent onlyProvider = none) ∧
      cmd = ["aider-ce", "--tui", "--config", effectivePath]
        ++ (match apiKey with
          | some k => ["--api-key", (getApiKeyInfo inp.profileContent).2 ++ "=" ++ k]
          | none => [])
        ++ (match msPath with
          | some m => ["--model-settings-file", pathName m]
          | none => [])
        ++ inp.standardArgs ++ extra2 := by
  obtain ⟨op, e2, apiKey, msPath, eff, hpo, hkv, hiff, hcmd⟩ :=
    runWithConfig_exec_shape inp cmd files created h
  refine ⟨op, e2, apiKey, msPath, eff, hpo, hkv, hiff, ?_⟩
  rw [hcmd]
  unfold buildAiderCommand
  cases apiKey with
  | none =>
    cases msPath with
    | none => rfl
    | some m => simp [pathName_ne_empty m]
  | some k =>
    have hkne := getApiKeyValue_ok_ne inp.env _ k hkv
    cases msPath with
    | none => simp [hkne]
    | some m => simp [hkne, pathName_ne_empty m]

/-- Witness for C7 at a run with a resolved secret, a synthesized
model-settings file, standard args and user args. -/
theorem command_token_order_witness :
    ∃ onlyProvider extra2 apiKey msPath effectivePath,
      parseOnlyProvider ["--only", "DeepSeek", "f.py"] = .ok (onlyProvider, extra2) ∧
      getApiKeyValue [("K", "sek")] (getApiKeyInfo "model: openrouter/a\napi-key-env: K\n").1 =
        .ok apiKey ∧
      (msPath = none ↔
        getModelSettings "model: openrouter/a\napi-key-env: K\n" onlyProvider = none) ∧
      ["aider-ce", "--tui", "--config", "/tmp/ca-tmp1", "--api-key", "openai=sek",
        "--model-settings-file", "/tmp/ca-tmp0", "--sa", "f.py"] =
        ["aider-ce", "--tui", "--config", effectivePath]
          ++ (match apiKey with
            | some k => ["--api-key",
                (getApiKeyInfo "model: openrouter/a\napi-key-env: K\n").2 ++ "=" ++ k]
            | none => [])
          ++ (match msPath with
            | some m => ["--model-settings-file", pathName m]
            | none => [])
          ++ ["--sa"] ++ extra2 :=
  command_token_order
    { profileFound := true
      profilePath := "/cfg/p.yml"
      profileContent := "model: openrouter/a\napi-key-env: K\n"
      globalDefaults := none
      env := [("K", "sek")]
      extraArgs := ["--only", "DeepSeek", "f.py"]
      standardArgs := ["--sa"]
      faults := noFaults }
    ["aider-ce", "--tui", "--config", "/tmp/ca-tmp1", "--api-key", "openai=sek",
      "--model-settings-file", "/tmp/ca-tmp0", "--sa", "f.py"]
    [(0, .settingsJson [mkSettingsEntry "DeepSeek" "openrouter/a"]),
      (1, .text "model: openrouter/a\n")]
    2
    (by decide)

/-! ## Claim C10 -/

/-- Claim C10: when `--only` occurs among the user pass-through arguments,
`run_with_config` removes its first occurrence together with the following
token (the target provider) before command assembly, so the final command
ends with the reduced pass-through list; when `--only` is the last token
with nothing following it, the run aborts with exit status 1
(`onlyMissingArg`) before creating any file. -/
theorem only_flag_parsing (inp : RunInput) (i : Nat)
    (hidx : firstIndexOf "--only" inp.extraArgs = some i) :
    (∀ p, inp.extraArgs.get? (i + 1) = some p →
      parseOnlyProvider inp.extraArgs =
        .ok (some p, inp.extraArgs.take i ++ inp.extraArgs.drop (i + 2)) ∧
      ∀ cmd files created, runWithConfig inp = .exec cmd files created →
        ∃ pre, cmd = pre ++ (inp.extraArgs.take i ++ inp.extraArgs.drop (i + 2))) ∧
    (inp.extraArgs.get? (i + 1) = none → inp.profileFound = true →
      runWithConfig inp = .exit .onlyMissingArg [] 0) := by
  constructor
  · intro p hp
    have hpeq : parseOnlyProvider inp.extraArgs =
        .ok (some p, inp.extraArgs.take i ++ inp.extraArgs.drop (i + 2)) := by
      unfold parseOnlyProvider
      rw [hidx]
      simp only []
      rw [hp]
    refine ⟨hpeq, ?_⟩
    intro cmd files created h
    obtain ⟨op, e2, apiKey, msPath, eff, hpo, hkv, hiff, hcmd⟩ :=
      runWithConfig_exec_shape inp cmd files created h
    rw [hpeq] at hpo
    simp only [Except.ok.injEq, Prod.mk.injEq] at hpo
    obtain ⟨hop, he2⟩ := hpo
    refine ⟨buildAiderCommand eff (getApiKeyInfo inp.profileContent).2 apiKey
      (msPath.map pathName) inp.standardArgs [], ?_⟩
    rw [hcmd, ← he2]
    unfold buildAiderCommand
    simp [List.append_assoc]
  · intro hnone hfound
    simp only [runWithConfig]
    rw [if_neg (by simp [hfound])]
    unfold parseOnlyProvider
    rw [hidx]
    simp only []
    rw [hnone]

/-- Witness for C10: both the removal case and the dangling `--only`
case, at concrete inputs. -/
theorem only_flag_parsing_witness :
    parseOnlyProvider ["--only", "DeepSeek", "f.py"] =
      .ok (some "DeepSeek", ["f.py"]) ∧
    runWithConfig
      { profileFound := true
        profilePath := "/cfg/p.yml"
        profileContent := "model: m\n"
        globalDefaults := none
        env := []
        extraArgs := ["f.py", "--only"]
        standardArgs := []
        faults := noFaults } = .exit .onlyMissingArg [] 0 := by
  constructor
  · exact ((only_flag_parsing
      { profileFound := true
        profilePath := "/cfg/p.yml"
        profileContent := "model: m\n"
        globalDefaults := none
        env := []
        extraArgs := ["--only", "DeepSeek", "f.py"]
        standardArgs := []
        faults := noFaults } 0 (by decide)).1 "DeepSeek" (by decide)).1
  · exact (only_flag_parsing
      { profileFound := true
        profilePath := "/cfg/p.yml"
        profileContent := "model: m\n"
        globalDefaults := none
        env := []
        extraArgs := ["f.py", "--only"]
        standardArgs := []
        faults := noFaults } 1 (by decide)).2 (by decide) (by decide)

/-! ## Evaluation lemmas for specific run paths -/

theorem parseOnlyProvider_none (args : List String)
    (h : firstIndexOf "--only" args = none) :
    parseOnlyProvider args = .ok (none, args) := by
  unfold parseOnlyProvider
  rw [h]

theorem runWithConfig_eq_runTry (inp : RunInput) (op : Option String)
    (e2 : List String) (hfound : inp.profileFound = true)
    (hpo : parseOnlyProvider inp.extraArgs = .ok (op, e2)) :
    runWithConfig inp = runTry inp op e2 := by
  simp only [runWithConfig]
  rw [if_neg (by simp [hfound]), hpo]

theorem bedrockStage_skip (env : List (String × String)) (c : String) (w : Bool)
    (hnb : checkForBedrockProfiles c = false) :
    bedrockStage env c w = .ok ([], 0, none) := by
  simp only [bedrockStage]
  rw [if_neg (by simp [hnb])]

theorem bedrockStage_run (env : List (String × String)) (c : String)
    (hnb : checkForBedrockProfiles c = true)
    (hr : truthy (envLookup env "BEDROCK_REGION") = true)
    (ha : truthy (envLookup env "BEDROCK_ACCOUNT") = true)
    (mn : String) (hm : extractBedrockModelName c = some mn) :
    bedrockStage env c false = .ok
      ([(0, .bedrockJson (createBedrockModelProfile mn
        ((envLookup env "BEDROCK_REGION").getD "")
        ((envLookup env "BEDROCK_ACCOUNT").getD "")))], 1, some 0) := by
  simp only [bedrockStage]
  rw [if_pos hnb, if_neg (by simp [hr, ha]), hm]
  simp only []
  rw [if_neg (by simp)]

theorem msStage_none (c : String) (op : Option String) (w : Bool)
    (files : List (Nat × FileData)) (next : Nat)
    (hg : getModelSettings c op = none) :
    msStage c op w files next = .ok (files, next, none) := by
  simp only [msStage]
  rw [hg]

theorem tempStage_skip (env : List (String × String)) (g : Option String)
    (c pp : String) (apiKey : Option String) (nb w : Bool)
    (files : List (Nat × FileData)) (next : Nat) (bPath : Option Nat)
    (hcond : (g.isSome || apiKey.isSome || nb) = false) :
    tempStage env g c pp apiKey nb w files next bPath = .ok (files, next, none, pp) := by
  simp only [tempStage]
  rw [if_neg (by simp [hcond])]

theorem tempStage_make (env : List (String × String)) (g : Option String)
    (c pp : String) (apiKey : Option String) (nb : Bool)
    (files : List (Nat × FileData)) (next : Nat) (bPath : Option Nat)
    (gpart ppart : String)
    (hcond : (g.isSome || apiKey.isSome || nb) = true)
    (hg : (match g with
      | some gc => Except.map (fun s => s ++ "\n") (substitutePlaceholders env gc)
      | none => Except.ok "") = .ok gpart)
    (hp : substitutePlaceholders env
      (String.join (filterProfileLines c (bPath.map pathName))) = .ok ppart) :
    tempStage env g c pp apiKey nb false files next bPath =
      .ok (files ++ [(next, .text (gpart ++ ppart))], next + 1, some next,
        pathName next) := by
  simp only [tempStage]
  rw [if_pos hcond, hg]
  simp only []
  rw [hp]
  simp only []
  rw [if_neg (by simp)]

theorem tempStage_placeholder_error (env : List (String × String))
    (g : Option String) (c pp : String) (apiKey : Option String) (nb w : Bool)
    (files : List (Nat × FileData)) (next : Nat) (bPath : Option Nat)
    (gpart : String) (v : String)
    (hcond : (g.isSome || apiKey.isSome || nb) = true)
    (hg : (match g with
      | some gc => Except.map (fun s => s ++ "\n") (substitutePlaceholders env gc)
      | none => Except.ok "") = .ok gpart)
    (hp : substitutePlaceholders env
      (String.join (filterProfileLines c (bPath.map pathName))) = .error v) :
    tempStage env g c pp apiKey nb w files next bPath =
      .error (.placeholderMissing v, files ++ [(next, .text gpart)], next + 1) := by
  simp only [tempStage]
  rw [if_pos hcond, hg]
  simp only []
  rw [hp]

theorem runTry_to_afterKey (inp : RunInput) (op : Option String)
    (e2 : List String) (apiKey : Option String)
    (files1 files2 : List (Nat × FileData)) (next1 next2 : Nat)
    (bPath msPath : Option Nat)
    (hni : inp.faults.interruptAt = none)
    (hbs : bedrockStage inp.env inp.profileContent inp.faults.bedrockWriteFails =
      .ok (files1, next1, bPath))
    (hms : msStage inp.profileContent op inp.faults.msWriteFails files1 next1 =
      .ok (files2, next2, msPath))
    (hkv : getApiKeyValue inp.env (getApiKeyInfo inp.profileContent).1 = .ok apiKey) :
    runTry inp op e2 = runAfterKey inp e2 (getApiKeyInfo inp.profileContent).2
      apiKey files2 next2 bPath msPath := by
  simp only [runTry]
  rw [if_neg (by simp [hni]), hbs]
  simp only []
  rw [if_neg (by simp [hni]), hms]
  simp only []
  rw [if_neg (by simp [hni]), hkv]

theorem runTry_missingSecret (inp : RunInput) (op : Option String)
    (e2 : List String) (v : String)
    (files1 files2 : List (Nat × FileData)) (next1 next2 : Nat)
    (bPath msPath : Option Nat)
    (hni : inp.faults.interruptAt = none)
    (hbs : bedrockStage inp.env inp.profileContent inp.faults.bedrockWriteFails =
      .ok (files1, next1, bPath))
    (hms : msStage inp.profileContent op inp.faults.msWriteFails files1 next1 =
      .ok (files2, next2, msPath))
    (hkv : getApiKeyValue inp.env (getApiKeyInfo inp.profileContent).1 = .error v) :
    runTry inp op e2 =
      .exit (.missingSecret v) (cleanupLedger files2 bPath msPath none) next2 := by
  simp only [runTry]
  rw [if_neg (by simp [hni]), hbs]
  simp only []
  rw [if_neg (by simp [hni]), hms]
  simp only []
  rw [if_neg (by simp [hni]), hkv]

theorem runAfterKey_exec (inp : RunInput) (e2 : List String)
    (prov : String) (apiKey : Option String)
    (files2 files3 : List (Nat × FileData)) (next2 next3 : Nat)
    (bPath msPath tPath : Option Nat) (eff : String)
    (hni : inp.faults.interruptAt = none)
    (hts : tempStage inp.env inp.globalDefaults inp.profileContent inp.profilePath
      apiKey (checkForBedrockProfiles inp.profileContent)
      inp.faults.tempWriteFails files2 next2 bPath = .ok (files3, next3, tPath, eff))
    (hex : inp.faults.execFound = true) :
    runAfterKey inp e2 prov apiKey files2 next2 bPath msPath =
      .exec (buildAiderCommand eff prov apiKey (msPath.map pathName)
        inp.standardArgs e2) files3 next3 := by
  simp only [runAfterKey]
  rw [if_neg (by simp [hni]), hts]
  simp only []
  rw [if_neg (by simp [hni]), if_pos hex]

theorem runAfterKey_error (inp : RunInput) (e2 : List String)
    (prov : String) (apiKey : Option String)
    (files2 filesE : List (Nat × FileData)) (next2 createdE : Nat)
    (bPath msPath : Option Nat) (r : ExitReason)
    (hni : inp.faults.interruptAt = none)
    (hts : tempStage inp.env inp.globalDefaults inp.profileContent inp.profilePath
      apiKey (checkForBedrockProfiles inp.profileContent)
      inp.faults.tempWriteFails files2 next2 bPath = .error (r, filesE, createdE)) :
    runAfterKey inp e2 prov apiKey files2 next2 bPath msPath =
      .exit r (cleanupLedger filesE bPath msPath none) createdE := by
  simp only [runAfterKey]
  rw [if_neg (by simp [hni]), hts]

/-! ## Claim C6 -/

/-- Claim C6: merging happens exactly when a Global Defaults document
exists, or a secret was resolved, or a Bedrock inference-profile file was
synthesized. When none of these holds no Effective Document temp file is
created (zero files ever created) and the token after the config flag is
the profile's own on-disk path, so the command is exactly the base tokens,
the config flag, the profile path, the standard repo args and the user
pass-through args; when one of them holds, an Effective Document temp file
is created and its path follows the config flag. -/
theorem merge_exactly_when_needed (inp : RunInput) (apiKey : Option String)
    (hfound : inp.profileFound = true)
    (honly : firstIndexOf "--only" inp.extraArgs = none)
    (hfaults : inp.faults = noFaults)
    (hkv : getApiKeyValue inp.env (getApiKeyInfo inp.profileContent).1 = .ok apiKey) :
    (inp.globalDefaults = none → apiKey = none →
      checkForBedrockProfiles inp.profileContent = false →
      runWithConfig inp =
        .exec (["aider-ce", "--tui", "--config", inp.profilePath]
          ++ inp.standardArgs ++ inp.extraArgs) [] 0) ∧
    (checkForBedrockProfiles inp.profileContent = false →
      (inp.globalDefaults.isSome || apiKey.isSome) = true →
      ∀ gpart ppart,
        (match inp.globalDefaults with
          | some gc => Except.map (fun s => s ++ "\n") (substitutePlaceholders inp.env gc)
          | none => Except.ok "") = .ok gpart →
        substitutePlaceholders inp.env
          (String.join (filterProfileLines inp.profileContent none)) = .ok ppart →
        runWithConfig inp =
          .exec (buildAiderCommand (pathName 0) (getApiKeyInfo inp.profileContent).2
            apiKey none inp.standardArgs inp.extraArgs)
            [(0, .text (gpart ++ ppart))] 1) ∧
    (checkForBedrockProfiles inp.profileContent = true →
      truthy (envLookup inp.env "BEDROCK_REGION") = true →
      truthy (envLookup inp.env "BEDROCK_ACCOUNT") = true →
      ∀ mn gpart ppart,
        extractBedrockModelName inp.profileContent = some mn →
        (match inp.globalDefaults with
          | some gc => Except.map (fun s => s ++ "\n") (substitutePlaceholders inp.env gc)
          | none => Except.ok "") = .ok gpart →
        substitutePlaceholders inp.env
          (String.join (filterProfileLines inp.profileContent (some (pathName 0)))) =
          .ok ppart →
        runWithConfig inp =
          .exec (buildAiderCommand (pathName 1) (getApiKeyInfo inp.profileContent).2
            apiKey none inp.standardArgs inp.extraArgs)
            [(0, .bedrockJson (createBedrockModelProfile mn
              ((envLookup inp.env "BEDROCK_REGION").getD "")
              ((envLookup inp.env "BEDROCK_ACCOUNT").getD ""))),
             (1, .text (gpart ++ ppart))] 2) := by
  have hpo := parseOnlyProvider_none _ honly
  have hni : inp.faults.interruptAt = none := by rw [hfaults]; rfl
  have hbw : inp.faults.bedrockWriteFails = false := by rw [hfaults]; rfl
  have hmw : inp.faults.msWriteFails = false := by rw [hfaults]; rfl
  have htw : inp.faults.tempWriteFails = false := by rw [hfaults]; rfl
  have hex : inp.faults.execFound = true := by rw [hfaults]; rfl
  refine ⟨?_, ?_, ?_⟩
  · intro hgd hknone hnb
    rw [runWithConfig_eq_runTry inp none inp.extraArgs hfound hpo]
    have hbs := bedrockStage_skip inp.env inp.profileContent
      inp.faults.bedrockWriteFails hnb
    have hms := msStage_none inp.profileContent none inp.faults.msWriteFails
      [] 0 rfl
    rw [runTry_to_afterKey inp none inp.extraArgs apiKey [] [] 0 0 none none
      hni hbs hms hkv]
    have hts := tempStage_skip inp.env inp.globalDefaults inp.profileContent
      inp.profilePath apiKey (checkForBedrockProfiles inp.profileContent)
      inp.faults.tempWriteFails [] 0 none (by simp [hgd, hknone, hnb])
    rw [runAfterKey_exec inp inp.extraArgs _ apiKey [] [] 0 0 none none none
      inp.profilePath hni hts hex]
    rw [hknone]
    simp [buildAiderCommand]
  · intro hnb hcond gpart ppart hg hp
    rw [runWithConfig_eq_runTry inp none inp.extraArgs hfound hpo]
    have hbs := bedrockStage_skip inp.env inp.profileContent
      inp.faults.bedrockWriteFails hnb
    have hms := msStage_none inp.profileContent none inp.faults.msWriteFails
      [] 0 rfl
    rw [runTry_to_afterKey inp none inp.extraArgs apiKey [] [] 0 0 none none
      hni hbs hms hkv]
    have hts : tempStage inp.env inp.globalDefaults inp.profileContent
        inp.profilePath apiKey (checkForBedrockProfiles inp.profileContent)
        inp.faults.tempWriteFails [] 0 none =
        .ok ([] ++ [(0, .text (gpart ++ ppart))], 0 + 1, some 0, pathName 0) := by
      rw [htw]
      exact tempStage_make inp.env inp.globalDefaults inp.profileContent
        inp.profilePath apiKey (checkForBedrockProfiles inp.profileContent)
        [] 0 none gpart ppart (by rw [hnb, Bool.or_false]; exact hcond) hg hp
    rw [runAfterKey_exec inp inp.extraArgs _ apiKey [] ([] ++ [(0, .text (gpart ++ ppart))])
      0 (0 + 1) none none (some 0) (pathName 0) hni hts hex]
    simp
  · intro hnb hr ha mn gpart ppart hm hg hp
    rw [runWithConfig_eq_runTry inp none inp.extraArgs hfound hpo]
    have hbs : bedrockStage inp.env inp.profileContent
        inp.faults.bedrockWriteFails = .ok
        ([(0, .bedrockJson (createBedrockModelProfile mn
          ((envLookup inp.env "BEDROCK_REGION").getD "")
          ((envLookup inp.env "BEDROCK_ACCOUNT").getD "")))], 1, some 0) := by
      rw [hbw]
      exact bedrockStage_run inp.env inp.profileContent hnb hr ha mn hm
    have hms := msStage_none inp.profileContent none inp.faults.msWriteFails
      [(0, .bedrockJson (createBedrockModelProfile mn
        ((envLookup inp.env "BEDROCK_REGION").getD "")
        ((envLookup inp.env "BEDROCK_ACCOUNT").getD "")))] 1 rfl
    rw [runTry_to_afterKey inp none inp.extraArgs apiKey _ _ 1 1 (some 0) none
      hni hbs hms hkv]
    have hts : tempStage inp.env inp.globalDefaults inp.profileContent
        inp.profilePath apiKey (checkForBedrockProfiles inp.profileContent)
        inp.faults.tempWriteFails
        [(0, .bedrockJson (createBedrockModelProfile mn
          ((envLookup inp.env "BEDROCK_REGION").getD "")
          ((envLookup inp.env "BEDROCK_ACCOUNT").getD "")))] 1 (some 0) =
        .ok ([(0, .bedrockJson (createBedrockModelProfile mn
          ((envLookup inp.env "BEDROCK_REGION").getD "")
          ((envLookup inp.env "BEDROCK_ACCOUNT").getD "")))]
          ++ [(1, .text (gpart ++ ppart))], 1 + 1, some 1, pathName 1) := by
      rw [htw]
      exact tempStage_make inp.env inp.globalDefaults inp.profileContent
        inp.profilePath apiKey (checkForBedrockProfiles inp.profileContent)
        _ 1 (some 0) gpart ppart (by rw [hnb]; simp) hg hp
    rw [runAfterKey_exec inp inp.extraArgs _ apiKey _ _ 1 (1 + 1) (some 0) none
      (some 1) (pathName 1) hni hts hex]
    simp

/-- Witness for C6: the end-to-end `c3` scenario of the spec (no secret,
no global defaults, no provider flags) hands off with exactly the base
tokens, the config flag, the profile's own path and the user args, with
zero temp files ever created; and the same profile with a secret resolved
produces an Effective Document temp file. -/
theorem merge_exactly_when_needed_witness :
    runWithConfig
      { profileFound := true
        profilePath := "/cfg/c3.yml"
        profileContent := "model: gpt-4o\n"
        globalDefaults := none
        env := []
        extraArgs := ["file1.py", "file2.py"]
        standardArgs := []
        faults := noFaults } =
      .exec (["aider-ce", "--tui", "--config", "/cfg/c3.yml"]
        ++ [] ++ ["file1.py", "file2.py"]) [] 0 ∧
    runWithConfig
      { profileFound := true
        profilePath := "/cfg/c3.yml"
        profileContent := "model: gpt-4o\napi-key-env: MYKEY\n"
        globalDefaults := none
        env := [("MYKEY", "sek")]
        extraArgs := []
        standardArgs := []
        faults := noFaults } =
      .exec (buildAiderCommand (pathName 0) "openai" (some "sek") none [] [])
        [(0, .text ("" ++ "model: gpt-4o\n"))] 1 := by
  constructor
  · exact (merge_exactly_when_needed
      { profileFound := true
        profilePath := "/cfg/c3.yml"
        profileContent := "model: gpt-4o\n"
        globalDefaults := none
        env := []
        extraArgs := ["file1.py", "file2.py"]
        standardArgs := []
        faults := noFaults } none rfl rfl rfl rfl).1 rfl rfl rfl
  · exact ((merge_exactly_when_needed
      { profileFound := true
        profilePath := "/cfg/c3.yml"
        profileContent := "model: gpt-4o\napi-key-env: MYKEY\n"
        globalDefaults := none
        env := [("MYKEY", "sek")]
        extraArgs := []
        standardArgs := []
        faults := noFaults } (some "sek") rfl rfl rfl
        rfl).2.1 rfl rfl "" "model: gpt-4o\n"
        rfl rfl)

/-! ## Claim C5 -/

/-- Counterexample to C5 as stated: with Global Defaults content `"x: 1"`
(no trailing newline) and profile content `"b: 2"`, the Effective Document
is `"x: 1\nb: 2"` — the global layer strictly precedes the profile layer,
but the two are separated by a single newline character, not a blank line
(no `"\n\n"` occurs anywhere in the file). -/
theorem global_separator_counterexample :
    runWithConfig
      { profileFound := true
        profilePath := "/cfg/p.yml"
        profileContent := "b: 2"
        globalDefaults := some "x: 1"
        env := []
        extraArgs := []
        standardArgs := []
        faults := noFaults } =
      .exec ["aider-ce", "--tui", "--config", pathName 0]
        [(0, .text "x: 1\nb: 2")] 1 ∧
    pyIn "\n\n" "x: 1\nb: 2" = false := by
  constructor
  · decide
  · decide

/-- Claim C5 (amended): whenever an Effective Document temp file is created
and a Global Defaults document exists, the substituted Global Defaults
content is written strictly before the filtered, substituted Profile
content (the file is exactly `sg ++ "\n" ++ sp`), with a single newline
character written between the two layers — which yields a blank line
exactly when the Global Defaults content itself ends with a newline. -/
theorem global_before_profile (inp : RunInput) (apiKey : Option String)
    (g sg sp : String)
    (hfound : inp.profileFound = true)
    (honly : firstIndexOf "--only" inp.extraArgs = none)
    (hfaults : inp.faults = noFaults)
    (hkv : getApiKeyValue inp.env (getApiKeyInfo inp.profileContent).1 = .ok apiKey)
    (hnb : checkForBedrockProfiles inp.profileContent = false)
    (hgd : inp.globalDefaults = some g)
    (hsg : substitutePlaceholders inp.env g = .ok sg)
    (hsp : substitutePlaceholders inp.env
      (String.join (filterProfileLines inp.profileContent none)) = .ok sp) :
    runWithConfig inp =
      .exec (buildAiderCommand (pathName 0) (getApiKeyInfo inp.profileContent).2
        apiKey none inp.standardArgs inp.extraArgs)
        [(0, .text (sg ++ "\n" ++ sp))] 1 := by
  have hpo := parseOnlyProvider_none _ honly
  have hni : inp.faults.interruptAt = none := by rw [hfaults]; rfl
  have htw : inp.faults.tempWriteFails = false := by rw [hfaults]; rfl
  have hex : inp.faults.execFound = true := by rw [hfaults]; rfl
  rw [runWithConfig_eq_runTry inp none inp.extraArgs hfound hpo]
  have hbs := bedrockStage_skip inp.env inp.profileContent
    inp.faults.bedrockWriteFails hnb
  have hms := msStage_none inp.profileContent none inp.faults.msWriteFails [] 0 rfl
  rw [runTry_to_afterKey inp none inp.extraArgs apiKey [] [] 0 0 none none
    hni hbs hms hkv]
  have hts : tempStage inp.env inp.globalDefaults inp.profileContent
      inp.profilePath apiKey (checkForBedrockProfiles inp.profileContent)
      inp.faults.tempWriteFails [] 0 none =
      .ok ([] ++ [(0, .text ((sg ++ "\n") ++ sp))], 0 + 1, some 0, pathName 0) := by
    rw [htw]
    exact tempStage_make inp.env inp.globalDefaults inp.profileContent
      inp.profilePath apiKey (checkForBedrockProfiles inp.profileContent)
      [] 0 none (sg ++ "\n") sp (by rw [hgd]; simp)
      (by rw [hgd]; simp only []; rw [hsg]; rfl) hsp
  rw [runAfterKey_exec inp inp.extraArgs _ apiKey [] ([] ++ [(0, .text ((sg ++ "\n") ++ sp))])
    0 (0 + 1) none none (some 0) (pathName 0) hni hts hex]
  simp

/-- Witness for C5's amended theorem: global content with a trailing
newline produces the familiar blank-line separation. -/
theorem global_before_profile_witness :
    runWithConfig
      { profileFound := true
        profilePath := "/cfg/p.yml"
        profileContent := "b: 2\n"
        globalDefaults := some "x: 1\n"
        env := []
        extraArgs := []
        standardArgs := []
        faults := noFaults } =
      .exec (buildAiderCommand (pathName 0) "openai" none none [] [])
        [(0, .text ("x: 1\n" ++ "\n" ++ "b: 2\n"))] 1 :=
  global_before_profile
    { profileFound := true
      profilePath := "/cfg/p.yml"
      profileContent := "b: 2\n"
      globalDefaults := some "x: 1\n"
      env := []
      extraArgs := []
      standardArgs := []
      faults := noFaults } none "x: 1\n" "x: 1\n" "b: 2\n"
    rfl rfl rfl rfl rfl rfl rfl rfl

/-! ## Claim C4 -/

theorem pyReplace_no_occur (s pat rep : String)
    (h : containsSub pat.data s.data = false) : pyReplace s pat rep = s := by
  unfold pyReplace
  rcases hd : pat.data with _ | ⟨p, ps⟩
  · rfl
  · have hnot : ¬((p :: ps) <:+: s.data) := by
      have := containsSub_false pat.data s.data h
      rw [hd] at this
      exact this
    simp only []
    rw [replaceChars_not_occur p ps rep.data s.data s.data.length hnot]

/-- Counterexample to C4 as stated: a profile containing `<region>` with
`BEDROCK_REGION` unset fails with the error naming `BEDROCK_REGION`, but
NOT before any file is written to disk — the Effective Document temp file
has already been created and the Global Defaults layer written into it
(and the partially-written file is leaked, since its path was never
recorded by the caller). -/
theorem placeholder_before_write_counterexample :
    runWithConfig
      { profileFound := true
        profilePath := "/cfg/p.yml"
        profileContent := "model: <region>\napi-key-env: K\n"
        globalDefaults := some "a: 1\n"
        env := [("K", "s")]
        extraArgs := []
        standardArgs := []
        faults := noFaults } =
      .exit (.placeholderMissing "BEDROCK_REGION") [(0, .text "a: 1\n\n")] 1 := by
  decide

/-- Claim C4 (amended): placeholder substitution is all-or-nothing — if
either token occurs, the first-checked absent value (`BEDROCK_REGION`,
then `BEDROCK_ACCOUNT`) is named in the failure; when both values are
present every occurrence of both tokens is replaced by literal substring
substitution; when neither token occurs the text passes through unchanged
and no values are required. The run-level failure happens before the
substituted content is written into the Effective Document, but not before
file creation: the temp file already exists (and is leaked, with whatever
layers were already written). -/
theorem placeholder_all_or_nothing :
    (∀ (env : List (String × String)) (content : String),
      ((pyIn "<region>" content || pyIn "<account>" content) = false →
        substitutePlaceholders env content = .ok content) ∧
      ((pyIn "<region>" content || pyIn "<account>" content) = true →
        truthy (envLookup env "BEDROCK_REGION") = false →
        substitutePlaceholders env content = .error "BEDROCK_REGION") ∧
      ((pyIn "<region>" content || pyIn "<account>" content) = true →
        truthy (envLookup env "BEDROCK_REGION") = true →
        truthy (envLookup env "BEDROCK_ACCOUNT") = false →
        substitutePlaceholders env content = .error "BEDROCK_ACCOUNT") ∧
      (truthy (envLookup env "BEDROCK_REGION") = true →
        truthy (envLookup env "BEDROCK_ACCOUNT") = true →
        substitutePlaceholders env content = .ok (pyReplace
          (pyReplace content "<region>" ((envLookup env "BEDROCK_REGION").getD ""))
          "<account>" ((envLookup env "BEDROCK_ACCOUNT").getD "")))) ∧
    (∀ (inp : RunInput) (k v : String),
      inp.profileFound = true →
      firstIndexOf "--only" inp.extraArgs = none →
      inp.faults = noFaults →
      inp.globalDefaults = none →
      checkForBedrockProfiles inp.profileContent = false →
      getApiKeyValue inp.env (getApiKeyInfo inp.profileContent).1 = .ok (some k) →
      substitutePlaceholders inp.env
        (String.join (filterProfileLines inp.profileContent none)) = .error v →
      runWithConfig inp = .exit (.placeholderMissing v) [(0, .text "")] 1) := by
  constructor
  · intro env content
    refine ⟨?_, ?_, ?_, ?_⟩
    · intro htok
      simp only [substitutePlaceholders]
      rw [if_neg (by simp [htok])]
    · intro htok hr
      simp only [substitutePlaceholders]
      rw [if_pos htok, if_pos (by simp [hr])]
    · intro htok hr ha
      simp only [substitutePlaceholders]
      rw [if_pos htok, if_neg (by simp [hr]), if_pos (by simp [ha])]
    · intro hr ha
      by_cases htok : (pyIn "<region>" content || pyIn "<account>" content) = true
      · simp only [substitutePlaceholders]
        rw [if_pos htok, if_neg (by simp [hr]), if_neg (by simp [ha])]
      · have hb : pyIn "<region>" content = false ∧ pyIn "<account>" content = false := by
          revert htok
          cases hx : pyIn "<region>" content <;> cases hy : pyIn "<account>" content <;> simp
        simp only [substitutePlaceholders]
        rw [if_neg htok]
        rw [pyReplace_no_occur content "<region>" _ hb.1,
          pyReplace_no_occur content "<account>" _ hb.2]
  · intro inp k v hfound honly hfaults hgd hnb hkv hsp
    have hpo := parseOnlyProvider_none _ honly
    have hni : inp.faults.interruptAt = none := by rw [hfaults]; rfl
    rw [runWithConfig_eq_runTry inp none inp.extraArgs hfound hpo]
    have hbs := bedrockStage_skip inp.env inp.profileContent
      inp.faults.bedrockWriteFails hnb
    have hms := msStage_none inp.profileContent none inp.faults.msWriteFails [] 0 rfl
    rw [runTry_to_afterKey inp none inp.extraArgs (some k) [] [] 0 0 none none
      hni hbs hms hkv]
    have hts := tempStage_placeholder_error inp.env inp.globalDefaults
      inp.profileContent inp.profilePath (some k)
      (checkForBedrockProfiles inp.profileContent) inp.faults.tempWriteFails
      [] 0 none "" v (by rw [hgd, hnb]; rfl) (by rw [hgd]) hsp
    rw [runAfterKey_error inp inp.extraArgs _ (some k) [] ([] ++ [(0, .text "")])
      0 (0 + 1) none none (.placeholderMissing v) hni hts]
    simp [cleanupLedger, removePath]

/-- Witness for C4's amended theorem: both-present substitution at a
concrete document, and the run-level failure naming the absent value after
the temp file was created. -/
theorem placeholder_all_or_nothing_witness :
    substitutePlaceholders [("BEDROCK_REGION", "r"), ("BEDROCK_ACCOUNT", "a")]
      "m: <region>\n" = .ok "m: r\n" ∧
    runWithConfig
      { profileFound := true
        profilePath := "/cfg/p.yml"
        profileContent := "model: <region>\napi-key-env: K\n"
        globalDefaults := none
        env := [("K", "s")]
        extraArgs := []
        standardArgs := []
        faults := noFaults } =
      .exit (.placeholderMissing "BEDROCK_REGION") [(0, .text "")] 1 := by
  constructor
  · rw [(placeholder_all_or_nothing.1
      [("BEDROCK_REGION", "r"), ("BEDROCK_ACCOUNT", "a")] "m: <region>\n").2.2.2 rfl rfl]
    rfl
  · exact placeholder_all_or_nothing.2
      { profileFound := true
        profilePath := "/cfg/p.yml"
        profileContent := "model: <region>\napi-key-env: K\n"
        globalDefaults := none
        env := [("K", "s")]
        extraArgs := []
        standardArgs := []
        faults := noFaults } "s" "BEDROCK_REGION" rfl rfl rfl rfl rfl rfl rfl

/-! ## Claim C3 -/

/-- Counterexample to C3 as stated: a profile that declares
`api-key-env: MYKEY` (unset) and also references the Bedrock
inference-profiles file. The run does fail with the missing-secret error
before the tool is invoked, but not before any file is written: one temp
file (the synthesized Bedrock profiles JSON) was created beforehand
(`created = 1`), and was deleted again on the way out. -/
theorem missing_secret_file_counterexample :
    runWithConfig
      { profileFound := true
        profilePath := "/cfg/p.yml"
        profileContent := "model: bedrock/converse/m1\nsettings: .bedrock-inference-profiles.json\napi-key-env: MYKEY\n"
        globalDefaults := none
        env := [("BEDROCK_REGION", "r"), ("BEDROCK_ACCOUNT", "a")]
        extraArgs := []
        standardArgs := []
        faults := noFaults } =
      .exit (.missingSecret "MYKEY") [] 1 := by
  decide

/-- Claim C3 (amended): for every profile declaring a secret environment
variable that is not set, the run exits with the missing-secret error
naming that variable, before the external tool is invoked and before the
Effective Document temp file is created — the only file possibly created
first is the synthesized Bedrock profiles temp file (counted by the
created-counter), and no file remains on disk after the exit. -/
theorem missing_secret_aborts (inp : RunInput) (E prov : String)
    (hfound : inp.profileFound = true)
    (honly : firstIndexOf "--only" inp.extraArgs = none)
    (hfaults : inp.faults = noFaults)
    (hinfo : getApiKeyInfo inp.profileContent = (some E, prov))
    (hE : (E == "") = false)
    (hunset : envLookup inp.env E = none)
    (hbed : checkForBedrockProfiles inp.profileContent = true →
      truthy (envLookup inp.env "BEDROCK_REGION") = true ∧
      truthy (envLookup inp.env "BEDROCK_ACCOUNT") = true ∧
      ∃ mn, extractBedrockModelName inp.profileContent = some mn) :
    runWithConfig inp = .exit (.missingSecret E) []
      (if checkForBedrockProfiles inp.profileContent then 1 else 0) := by
  have hpo := parseOnlyProvider_none _ honly
  have hni : inp.faults.interruptAt = none := by rw [hfaults]; rfl
  have hbw : inp.faults.bedrockWriteFails = false := by rw [hfaults]; rfl
  have hkv : getApiKeyValue inp.env (getApiKeyInfo inp.profileContent).1 =
      .error E := by
    rw [hinfo]
    simp only [getApiKeyValue]
    rw [if_neg (by simp [hE]), hunset]
  rw [runWithConfig_eq_runTry inp none inp.extraArgs hfound hpo]
  cases hnb : checkForBedrockProfiles inp.profileContent with
  | false =>
    have hbs := bedrockStage_skip inp.env inp.profileContent
      inp.faults.bedrockWriteFails hnb
    have hms := msStage_none inp.profileContent none inp.faults.msWriteFails [] 0 rfl
    rw [runTry_missingSecret inp none inp.extraArgs E [] [] 0 0 none none
      hni hbs hms hkv]
    simp [cleanupLedger, removePath]
  | true =>
    obtain ⟨hr, ha, mn, hm⟩ := hbed hnb
    have hbs : bedrockStage inp.env inp.profileContent
        inp.faults.bedrockWriteFails = .ok
        ([(0, .bedrockJson (createBedrockModelProfile mn
          ((envLookup inp.env "BEDROCK_REGION").getD "")
          ((envLookup inp.env "BEDROCK_ACCOUNT").getD "")))], 1, some 0) := by
      rw [hbw]
      exact bedrockStage_run inp.env inp.profileContent hnb hr ha mn hm
    have hms := msStage_none inp.profileContent none inp.faults.msWriteFails
      [(0, .bedrockJson (createBedrockModelProfile mn
        ((envLookup inp.env "BEDROCK_REGION").getD "")
        ((envLookup inp.env "BEDROCK_ACCOUNT").getD "")))] 1 rfl
    rw [runTry_missingSecret inp none inp.extraArgs E _ _ 1 1 (some 0) none
      hni hbs hms hkv]
    simp [cleanupLedger, removePath]

/-- Witness for C3's amended theorem at a concrete profile with no Bedrock
reference: the run exits with the missing-secret error with zero files ever
created. -/
theorem missing_secret_aborts_witness :
    runWithConfig
      { profileFound := true
        profilePath := "/cfg/p.yml"
        profileContent := "model: x\napi-key-env: MYKEY\n"
        globalDefaults := none
        env := []
        extraArgs := []
        standardArgs := []
        faults := noFaults } = .exit (.missingSecret "MYKEY") [] 0 :=
  missing_secret_aborts
    { profileFound := true
      profilePath := "/cfg/p.yml"
      profileContent := "model: x\napi-key-env: MYKEY\n"
      globalDefaults := none
      env := []
      extraArgs := []
      standardArgs := []
      faults := noFaults } "MYKEY" "openai" rfl rfl rfl rfl rfl rfl
    (fun h => absurd h (by decide))

/-! ## Claim C2: cleanup lemmas -/

theorem bedrockStage_error_shape (env : List (String × String)) (c : String)
    (w : Bool) (r : ExitReason) (fsE : List (Nat × FileData)) (crE : Nat)
    (hw : w = false)
    (h : bedrockStage env c w = .error (r, fsE, crE)) : fsE = [] := by
  simp only [bedrockStage] at h
  by_cases hc : checkForBedrockProfiles c = true
  · rw [if_pos hc] at h
    by_cases htr : (!truthy (envLookup env "BEDROCK_REGION") ||
        !truthy (envLookup env "BEDROCK_ACCOUNT")) = true
    · rw [if_pos htr] at h
      simp only [Except.error.injEq, Prod.mk.injEq] at h
      exact h.2.1.symm
    · rw [if_neg htr] at h
      cases hm : extractBedrockModelName c with
      | none =>
        rw [hm] at h
        simp only [] at h
        simp only [Except.error.injEq, Prod.mk.injEq] at h
        exact h.2.1.symm
      | some mn =>
        rw [hm] at h
        simp only [] at h
        rw [if_neg (by simp [hw])] at h
        simp at h
  · rw [if_neg hc] at h
    simp at h

theorem msStage_error_shape (c : String) (op : Option String) (w : Bool)
    (files : List (Nat × FileData)) (next : Nat) (r : ExitReason)
    (fsE : List (Nat × FileData)) (crE : Nat)
    (h : msStage c op w files next = .error (r, fsE, crE)) : fsE = files := by
  simp only [msStage] at h
  cases hg : getModelSettings c op with
  | none =>
    rw [hg] at h
    simp at h
  | some entries =>
    rw [hg] at h
    simp only [] at h
    by_cases hw : w = true
    · rw [if_pos hw] at h
      simp only [Except.error.injEq, Prod.mk.injEq] at h
      exact h.2.1.symm
    · rw [if_neg hw] at h
      simp at h

theorem tempStage_error_shape (env : List (String × String)) (g : Option String)
    (c pp : String) (apiKey : Option String) (nb w : Bool)
    (files : List (Nat × FileData)) (next : Nat) (bPath : Option Nat)
    (r : ExitReason) (fsE : List (Nat × FileData)) (crE : Nat)
    (h : tempStage env g c pp apiKey nb w files next bPath = .error (r, fsE, crE)) :
    (fsE = files) ∨
    ((∃ g0, g = some g0 ∧ (substitutePlaceholders env g0).isOk = false) ∨
      (substitutePlaceholders env (String.join (filterProfileLines c
        (bPath.map pathName)))).isOk = false) := by
  simp only [tempStage] at h
  by_cases hcond : (g.isSome || apiKey.isSome || nb) = true
  · rw [if_pos hcond] at h
    cases hgp : (match g with
      | some gc => Except.map (fun s => s ++ "\n") (substitutePlaceholders env gc)
      | none => Except.ok "") with
    | error v =>
      refine Or.inr (Or.inl ?_)
      cases hgd : g with
      | none =>
        rw [hgd] at hgp
        simp at hgp
      | some g0 =>
        rw [hgd] at hgp
        refine ⟨g0, rfl, ?_⟩
        cases hs : substitutePlaceholders env g0 with
        | error v2 => rfl
        | ok s =>
          exfalso
          have h2 : (match some g0 with
              | some gc => Except.map (fun s => s ++ "\n") (substitutePlaceholders env gc)
              | none => Except.ok "") = Except.ok (s ++ "\n") := by
            show Except.map (fun s => s ++ "\n") (substitutePlaceholders env g0) =
              Except.ok (s ++ "\n")
            rw [hs]
            rfl
          rw [h2] at hgp
          simp at hgp
    | ok gpart =>
      rw [hgp] at h
      simp only [] at h
      cases hp : substitutePlaceholders env
          (String.join (filterProfileLines c (bPath.map pathName))) with
      | error v =>
        exact Or.inr (Or.inr rfl)
      | ok ppart =>
        rw [hp] at h
        simp only [] at h
        by_cases hw : w = true
        · rw [if_pos hw] at h
          simp only [Except.error.injEq, Prod.mk.injEq] at h
          exact Or.inl h.2.1.symm
        · rw [if_neg hw] at h
          simp at h
  · rw [if_neg hcond] at h
    simp at h

theorem bedrock_cleanup (env : List (String × String)) (c : String) (w : Bool)
    (files1 : List (Nat × FileData)) (next1 : Nat) (bPath : Option Nat)
    (h : bedrockStage env c w = .ok (files1, next1, bPath)) :
    cleanupLedger files1 bPath none none = [] := by
  rcases bedrockStage_ok env c w files1 next1 bPath h with
    ⟨h1, _, h3, _⟩ | ⟨d, h1, _, h3, _⟩ <;> subst h1 <;> subst h3 <;> rfl

theorem ms_cleanup (env : List (String × String)) (c : String) (wb wm : Bool)
    (op : Option String)
    (files1 files2 : List (Nat × FileData)) (next1 next2 : Nat)
    (bPath msPath : Option Nat)
    (hb : bedrockStage env c wb = .ok (files1, next1, bPath))
    (hm : msStage c op wm files1 next1 = .ok (files2, next2, msPath)) :
    cleanupLedger files2 bPath msPath none = [] := by
  rcases bedrockStage_ok env c wb files1 next1 bPath hb with
    ⟨h1, h2, h3, _⟩ | ⟨d, h1, h2, h3, _⟩ <;>
  · subst h1
    subst h2
    subst h3
    rcases msStage_ok c op wm _ _ files2 next2 msPath hm with
      ⟨g1, _, g3, _⟩ | ⟨es, g1, _, g3, _⟩ <;> subst g1 <;> subst g3 <;> rfl

theorem temp_cleanup (env : List (String × String)) (c pp : String)
    (wb wm wt : Bool) (op : Option String) (g : Option String)
    (apiKey : Option String) (nb : Bool)
    (files1 files2 files3 : List (Nat × FileData)) (next1 next2 next3 : Nat)
    (bPath msPath tPath : Option Nat) (eff : String)
    (hb : bedrockStage env c wb = .ok (files1, next1, bPath))
    (hm : msStage c op wm files1 next1 = .ok (files2, next2, msPath))
    (ht : tempStage env g c pp apiKey nb wt files2 next2 bPath =
      .ok (files3, next3, tPath, eff)) :
    cleanupLedger files3 bPath msPath tPath = [] := by
  rcases bedrockStage_ok env c wb files1 next1 bPath hb with
    ⟨h1, h2, h3, _⟩ | ⟨d, h1, h2, h3, _⟩ <;>
  · subst h1
    subst h2
    subst h3
    rcases msStage_ok c op wm _ _ files2 next2 msPath hm with
      ⟨g1, g2, g3, _⟩ | ⟨es, g1, g2, g3, _⟩ <;>
    · subst g1
      subst g2
      subst g3
      rcases tempStage_ok env g c pp apiKey nb wt _ _ _ files3 next3 tPath
          eff ht with
        ⟨t1, _, t3, _, _⟩ | ⟨ct, t1, _, t3, _, _⟩ <;> subst t1 <;> subst t3 <;> rfl

/-- Counterexample to C2 as stated: on the successful hand-off path the
`finally` block never runs (the process image is replaced by `os.execvpe`
first), so the Effective Document temp file is still on disk at the moment
of replacement — it is not deleted "before the process image is
replaced". -/
theorem cleanup_before_exec_counterexample :
    runWithConfig
      { profileFound := true
        profilePath := "/cfg/p.yml"
        profileContent := "model: x\napi-key-env: K\n"
        globalDefaults := none
        env := [("K", "sek")]
        extraArgs := []
        standardArgs := []
        faults := noFaults } =
      .exec ["aider-ce", "--tui", "--config", pathName 0, "--api-key", "openai=sek"]
        [(0, .text "model: x\n")] 1 := by
  decide

/-- Claim C2 (amended): on every exit path where control returns to the
caller (any resolution/merge/synthesis failure, interrupt, write failure
or missing executable), every temp file whose path was recorded by
`run_with_config` is deleted by the `finally` ledger before exit, and —
provided the Bedrock-profiles write does not fail after creating its file,
and no placeholder substitution fails — no temp file at all remains on
disk. (On the successful hand-off the temp files are intentionally left in
place for the invoked tool, and a failing Bedrock write or an aborted
placeholder substitution leaks the one unrecorded file, as the
counterexamples show.) -/
theorem ledger_cleanup_on_exit (inp : RunInput) (r : ExitReason)
    (files : List (Nat × FileData)) (created : Nat)
    (hbw : inp.faults.bedrockWriteFails = false)
    (hg : ∀ g0, inp.globalDefaults = some g0 →
      (substitutePlaceholders inp.env g0).isOk = true)
    (hp0 : (substitutePlaceholders inp.env
      (String.join (filterProfileLines inp.profileContent none))).isOk = true)
    (hp1 : (substitutePlaceholders inp.env
      (String.join (filterProfileLines inp.profileContent
        (some (pathName 0))))).isOk = true)
    (h : runWithConfig inp = .exit r files created) :
    files = [] := by
  simp only [runWithConfig] at h
  by_cases hf : inp.profileFound = true
  case neg =>
    rw [if_pos (by revert hf; cases inp.profileFound <;> simp)] at h
    simp only [Outcome.exit.injEq] at h
    exact h.2.1.symm
  case pos =>
    rw [if_neg (by simp [hf])] at h
    cases hpo : parseOnlyProvider inp.extraArgs with
    | error e =>
      rw [hpo] at h
      simp only [] at h
      simp only [Outcome.exit.injEq] at h
      exact h.2.1.symm
    | ok pr =>
      obtain ⟨op, e2⟩ := pr
      rw [hpo] at h
      simp only [] at h
      simp only [runTry] at h
      by_cases h0 : inp.faults.interruptAt = some 0
      · rw [if_pos h0] at h
        simp only [Outcome.exit.injEq] at h
        exact h.2.1.symm
      · rw [if_neg h0] at h
        cases hbs : bedrockStage inp.env inp.profileContent
            inp.faults.bedrockWriteFails with
        | error e =>
          obtain ⟨r0, fs0, c0⟩ := e
          rw [hbs] at h
          simp only [] at h
          simp only [Outcome.exit.injEq] at h
          rw [← h.2.1]
          exact bedrockStage_error_shape inp.env inp.profileContent
            inp.faults.bedrockWriteFails r0 fs0 c0 hbw hbs
        | ok res =>
          obtain ⟨files1, next1, bPath⟩ := res
          rw [hbs] at h
          simp only [] at h
          by_cases h1 : inp.faults.interruptAt = some 1
          · rw [if_pos h1] at h
            simp only [Outcome.exit.injEq] at h
            rw [← h.2.1]
            exact bedrock_cleanup inp.env inp.profileContent
              inp.faults.bedrockWriteFails files1 next1 bPath hbs
          · rw [if_neg h1] at h
            cases hms : msStage inp.profileContent op inp.faults.msWriteFails
                files1 next1 with
            | error e =>
              obtain ⟨r0, fs0, c0⟩ := e
              rw [hms] at h
              simp only [] at h
              simp only [Outcome.exit.injEq] at h
              rw [← h.2.1]
              rw [msStage_error_shape inp.profileContent op
                inp.faults.msWriteFails files1 next1 r0 fs0 c0 hms]
              exact bedrock_cleanup inp.env inp.profileContent
                inp.faults.bedrockWriteFails files1 next1 bPath hbs
            | ok res2 =>
              obtain ⟨files2, next2, msPath⟩ := res2
              rw [hms] at h
              simp only [] at h
              by_cases h2 : inp.faults.interruptAt = some 2
              · rw [if_pos h2] at h
                simp only [Outcome.exit.injEq] at h
                rw [← h.2.1]
                exact ms_cleanup inp.env inp.profileContent _ _ op _ _ _ _
                  bPath msPath hbs hms
              · rw [if_neg h2] at h
                cases hkv : getApiKeyValue inp.env
                    (getApiKeyInfo inp.profileContent).1 with
                | error v =>
                  rw [hkv] at h
                  simp only [] at h
                  simp only [Outcome.exit.injEq] at h
                  rw [← h.2.1]
                  exact ms_cleanup inp.env inp.profileContent _ _ op _ _ _ _
                    bPath msPath hbs hms
                | ok apiKey =>
                  rw [hkv] at h
                  simp only [] at h
                  simp only [runAfterKey] at h
                  by_cases h3 : inp.faults.interruptAt = some 3
                  · rw [if_pos h3] at h
                    simp only [Outcome.exit.injEq] at h
                    rw [← h.2.1]
                    exact ms_cleanup inp.env inp.profileContent _ _ op _ _ _ _
                      bPath msPath hbs hms
                  · rw [if_neg h3] at h
                    cases hts : tempStage inp.env inp.globalDefaults
                        inp.profileContent inp.profilePath apiKey
                        (checkForBedrockProfiles inp.profileContent)
                        inp.faults.tempWriteFails files2 next2 bPath with
                    | error e =>
                      obtain ⟨r0, fs0, c0⟩ := e
                      rw [hts] at h
                      simp only [] at h
                      simp only [Outcome.exit.injEq] at h
                      rw [← h.2.1]
                      rcases tempStage_error_shape inp.env inp.globalDefaults
                          inp.profileContent inp.profilePath apiKey
                          (checkForBedrockProfiles inp.profileContent)
                          inp.faults.tempWriteFails files2 next2 bPath
                          r0 fs0 c0 hts with
                        hfs | ⟨g0, hg0, hbad⟩ | hbad
                      · rw [hfs]
                        exact ms_cleanup inp.env inp.profileContent _ _ op _ _ _ _
                          bPath msPath hbs hms
                      · rw [hg g0 hg0] at hbad
                        simp at hbad
                      · rcases bedrockStage_ok inp.env inp.profileContent
                            inp.faults.bedrockWriteFails files1 next1 bPath hbs with
                          ⟨_, _, hb3, _⟩ | ⟨d, _, _, hb3, _⟩
                        · rw [hb3] at hbad
                          rw [show (Option.map pathName (none : Option Nat)) =
                            (none : Option String) from rfl] at hbad
                          rw [hp0] at hbad
                          simp at hbad
                        · rw [hb3] at hbad
                          rw [show (Option.map pathName (some 0)) =
                            some (pathName 0) from rfl] at hbad
                          rw [hp1] at hbad
                          simp at hbad
                    | ok res3 =>
                      obtain ⟨files3, next3, tPath, eff⟩ := res3
                      rw [hts] at h
                      simp only [] at h
                      by_cases h4 : inp.faults.interruptAt = some 4
                      · rw [if_pos h4] at h
                        simp only [Outcome.exit.injEq] at h
                        rw [← h.2.1]
                        exact temp_cleanup inp.env inp.profileContent
                          inp.profilePath _ _ _ op inp.globalDefaults apiKey _
                          _ _ _ _ _ _ bPath msPath tPath eff hbs hms hts
                      · rw [if_neg h4] at h
                        by_cases hex : inp.faults.execFound = true
                        · rw [if_pos hex] at h
                          simp at h
                        · rw [if_neg hex] at h
                          simp only [Outcome.exit.injEq] at h
                          rw [← h.2.1]
                          exact temp_cleanup inp.env inp.profileContent
                            inp.profilePath _ _ _ op inp.globalDefaults apiKey _
                            _ _ _ _ _ _ bPath msPath tPath eff hbs hms hts

/-- Witness for C2's amended theorem: a run that fails at the
model-settings write after the Bedrock profiles file was already created
still ends with zero files on disk. -/
theorem ledger_cleanup_on_exit_witness :
    runWithConfig
      { profileFound := true
        profilePath := "/cfg/p.yml"
        profileContent := "model: bedrock/converse/m1\nsettings: .bedrock-inference-profiles.json\nweak-model: openrouter/a\n"
        globalDefaults := none
        env := [("BEDROCK_REGION", "r"), ("BEDROCK_ACCOUNT", "a")]
        extraArgs := ["--only", "P"]
        standardArgs := []
        faults := { noFaults with msWriteFails := true } } =
      .exit .msWriteError [] 2 ∧
    ∀ r files created,
      runWithConfig
        { profileFound := true
          profilePath := "/cfg/p.yml"
          profileContent := "model: bedrock/converse/m1\nsettings: .bedrock-inference-profiles.json\nweak-model: openrouter/a\n"
          globalDefaults := none
          env := [("BEDROCK_REGION", "r"), ("BEDROCK_ACCOUNT", "a")]
          extraArgs := ["--only", "P"]
          standardArgs := []
          faults := { noFaults with msWriteFails := true } } =
        .exit r files created → files = [] := by
  constructor
  · decide
  · intro r files created h
    exact ledger_cleanup_on_exit
      { profileFound := true
        profilePath := "/cfg/p.yml"
        profileContent := "model: bedrock/converse/m1\nsettings: .bedrock-inference-profiles.json\nweak-model: openrouter/a\n"
        globalDefaults := none
        env := [("BEDROCK_REGION", "r"), ("BEDROCK_ACCOUNT", "a")]
        extraArgs := ["--only", "P"]
        standardArgs := []
        faults := { noFaults with msWriteFails := true } } r files created rfl
      (fun g0 hg0 => by simp at hg0) rfl rfl h

/-! ## Claim C1: the run depends on the environment only through the two
placeholder variables and the declared secret variable -/

theorem substitutePlaceholders_congr (env₁ env₂ : List (String × String))
    (hR : envLookup env₁ "BEDROCK_REGION" = envLookup env₂ "BEDROCK_REGION")
    (hA : envLookup env₁ "BEDROCK_ACCOUNT" = envLookup env₂ "BEDROCK_ACCOUNT")
    (content : String) :
    substitutePlaceholders env₁ content = substitutePlaceholders env₂ content := by
  simp only [substitutePlaceholders]
  rw [hR, hA]

theorem bedrockStage_congr (env₁ env₂ : List (String × String))
    (hR : envLookup env₁ "BEDROCK_REGION" = envLookup env₂ "BEDROCK_REGION")
    (hA : envLookup env₁ "BEDROCK_ACCOUNT" = envLookup env₂ "BEDROCK_ACCOUNT")
    (c : String) (w : Bool) :
    bedrockStage env₁ c w = bedrockStage env₂ c w := by
  simp only [bedrockStage]
  rw [hR, hA]

theorem tempStage_congr (env₁ env₂ : List (String × String))
    (hR : envLookup env₁ "BEDROCK_REGION" = envLookup env₂ "BEDROCK_REGION")
    (hA : envLookup env₁ "BEDROCK_ACCOUNT" = envLookup env₂ "BEDROCK_ACCOUNT")
    (g : Option String) (c pp : String) (k₁ k₂ : String) (nb w : Bool)
    (files : List (Nat × FileData)) (next : Nat) (bPath : Option Nat) :
    tempStage env₁ g c pp (some k₁) nb w files next bPath =
      tempStage env₂ g c pp (some k₂) nb w files next bPath := by
  have hsub : ∀ s, substitutePlaceholders env₁ s = substitutePlaceholders env₂ s :=
    substitutePlaceholders_congr env₁ env₂ hR hA
  simp only [tempStage, hsub, Option.isSome_some]

theorem buildAiderCommand_api (eff prov k : String) (hk : (k == "") = false)
    (msf : Option String) (sa e2 : List String) :
    buildAiderCommand eff prov (some k) msf sa e2 =
      ["aider-ce", "--tui", "--config", eff] ++ ["--api-key", prov ++ "=" ++ k] ++
        ((match msf with
          | some m => if (m == "") = true then [] else ["--model-settings-file", m]
          | none => []) ++ sa ++ e2) := by
  simp only [buildAiderCommand]
  rw [if_neg (by simp [hk])]
  simp [List.append_assoc]

theorem filterMap_if {α β : Type} (p : α → Bool) (g : α → β) :
    ∀ l : List α, l.filterMap (fun x => if p x then none else some (g x)) =
      (l.filter (fun x => !p x)).map g := by
  intro l
  induction l with
  | nil => rfl
  | cons a as ih =>
    by_cases hp : p a = true
    · simp [List.filterMap_cons, List.filter_cons, hp, ih]
    · have hpf : p a = false := by
        revert hp
        cases p a <;> simp
      simp [List.filterMap_cons, List.filter_cons, hpf, ih]

theorem filterProfileLines_eq (content : String) (bp : Option String) :
    filterProfileLines content bp = ((pyLines content).filter (fun l =>
      !(pyStartsWith (pyStrip l) "api-key-env:" ||
        pyStartsWith (pyStrip l) "api-key-provider:"))).map (fun line =>
      match bp with
      | some bpath =>
        if pyIn ".bedrock-inference-profiles.json" line then
          pyReplace line ".bedrock-inference-profiles.json" bpath
        else line
      | none => line) := by
  unfold filterProfileLines
  exact filterMap_if _ _ _

/-- Claim C1 (amended): for a profile declaring a secret directive whose
environment variable is set (to a nonempty value), the resolved secret
flows only into the API-key token of the invocation command. Two runs that
agree on everything except the secret value (same placeholder variables,
same documents and arguments) produce identical on-disk files at every
point and identical outcomes, except that the command of a successful
hand-off differs exactly in the API-key token `provider=secret`; and the
profile's `api-key-env:`/`api-key-provider:` directive lines are removed
from the Effective Document's profile layer — its kept lines are exactly
the non-directive lines (with only the Bedrock reference rewritten). -/
theorem secret_confinement (pf : Bool) (pp pc : String) (gd : Option String)
    (env₁ env₂ : List (String × String)) (ea sa : List String) (fl : Faults)
    (E prov k₁ k₂ : String)
    (hinfo : getApiKeyInfo pc = (some E, prov))
    (hE : (E == "") = false)
    (hR : envLookup env₁ "BEDROCK_REGION" = envLookup env₂ "BEDROCK_REGION")
    (hA : envLookup env₁ "BEDROCK_ACCOUNT" = envLookup env₂ "BEDROCK_ACCOUNT")
    (hk₁ : envLookup env₁ E = some k₁) (hk₁n : (k₁ == "") = false)
    (hk₂ : envLookup env₂ E = some k₂) (hk₂n : (k₂ == "") = false) :
    secretConfined
      (runWithConfig ⟨pf, pp, pc, gd, env₁, ea, sa, fl⟩)
      (runWithConfig ⟨pf, pp, pc, gd, env₂, ea, sa, fl⟩)
      (prov ++ "=" ++ k₁) (prov ++ "=" ++ k₂) ∧
    (∀ bp, filterProfileLines pc bp = ((pyLines pc).filter (fun l =>
      !(pyStartsWith (pyStrip l) "api-key-env:" ||
        pyStartsWith (pyStrip l) "api-key-provider:"))).map (fun line =>
      match bp with
      | some bpath =>
        if pyIn ".bedrock-inference-profiles.json" line then
          pyReplace line ".bedrock-inference-profiles.json" bpath
        else line
      | none => line)) := by
  have hkv₁ : getApiKeyValue env₁ (some E) = .ok (some k₁) := by
    simp only [getApiKeyValue]
    rw [if_neg (by simp [hE]), hk₁]
    exact if_neg (by simp [hk₁n])
  have hkv₂ : getApiKeyValue env₂ (some E) = .ok (some k₂) := by
    simp only [getApiKeyValue]
    rw [if_neg (by simp [hE]), hk₂]
    exact if_neg (by simp [hk₂n])
  refine ⟨?_, fun bp => filterProfileLines_eq pc bp⟩
  simp only [runWithConfig]
  by_cases hf : pf = true
  case neg =>
    rw [if_pos (by revert hf; cases pf <;> simp),
      if_pos (by revert hf; cases pf <;> simp)]
    exact ⟨rfl, rfl, rfl⟩
  case pos =>
    rw [if_neg (by simp [hf]), if_neg (by simp [hf])]
    cases hpo : parseOnlyProvider ea with
    | error e =>
      exact ⟨rfl, rfl, rfl⟩
    | ok pr =>
      obtain ⟨op, e2⟩ := pr
      simp only [runTry]
      by_cases h0 : fl.interruptAt = some 0
      · rw [if_pos h0, if_pos h0]
        exact ⟨rfl, rfl, rfl⟩
      · rw [if_neg h0, if_neg h0,
          ← bedrockStage_congr env₁ env₂ hR hA pc fl.bedrockWriteFails]
        cases hbs : bedrockStage env₁ pc fl.bedrockWriteFails with
        | error e =>
          obtain ⟨r0, fs0, c0⟩ := e
          exact ⟨rfl, rfl, rfl⟩
        | ok res =>
          obtain ⟨files1, next1, bPath⟩ := res
          simp only []
          by_cases h1 : fl.interruptAt = some 1
          · rw [if_pos h1, if_pos h1]
            exact ⟨rfl, rfl, rfl⟩
          · rw [if_neg h1, if_neg h1]
            cases hms : msStage pc op fl.msWriteFails files1 next1 with
            | error e =>
              obtain ⟨r0, fs0, c0⟩ := e
              exact ⟨rfl, rfl, rfl⟩
            | ok res2 =>
              obtain ⟨files2, next2, msPath⟩ := res2
              simp only []
              by_cases h2 : fl.interruptAt = some 2
              · rw [if_pos h2, if_pos h2]
                exact ⟨rfl, rfl, rfl⟩
              · rw [if_neg h2, if_neg h2, hinfo]
                simp only []
                rw [hkv₁, hkv₂]
                simp only [runAfterKey]
                by_cases h3 : fl.interruptAt = some 3
                · rw [if_pos h3, if_pos h3]
                  exact ⟨rfl, rfl, rfl⟩
                · rw [if_neg h3, if_neg h3,
                    ← tempStage_congr env₁ env₂ hR hA gd pc pp k₁ k₂
                      (checkForBedrockProfiles pc) fl.tempWriteFails
                      files2 next2 bPath]
                  cases hts : tempStage env₁ gd pc pp (some k₁)
                      (checkForBedrockProfiles pc) fl.tempWriteFails
                      files2 next2 bPath with
                  | error e =>
                    obtain ⟨r0, fs0, c0⟩ := e
                    exact ⟨rfl, rfl, rfl⟩
                  | ok res3 =>
                    obtain ⟨files3, next3, tPath, eff⟩ := res3
                    simp only []
                    by_cases h4 : fl.interruptAt = some 4
                    · rw [if_pos h4, if_pos h4]
                      exact ⟨rfl, rfl, rfl⟩
                    · rw [if_neg h4, if_neg h4]
                      by_cases hex : fl.execFound = true
                      · rw [if_pos hex, if_pos hex,
                          buildAiderCommand_api eff prov k₁ hk₁n
                            (msPath.map pathName) sa e2,
                          buildAiderCommand_api eff prov k₂ hk₂n
                            (msPath.map pathName) sa e2]
                        exact ⟨rfl, rfl, _, _, rfl, rfl⟩
                      · rw [if_neg hex, if_neg hex]
                        exact ⟨rfl, rfl, rfl⟩

/-- Counterexample to C1 as stated: a profile may declare
`api-key-env: BEDROCK_REGION`, so the resolved secret is simultaneously
the placeholder value — and placeholder substitution writes it into the
Effective Document on disk. Here the resolved secret `"sek"` occurs as a
substring of the temp file's on-disk text, although the claim says the
secret value is never written into any file. -/
theorem secret_in_file_counterexample :
    runWithConfig ⟨true, "/cfg/p.yml",
      "model: <region>\napi-key-env: BEDROCK_REGION\n", none,
      [("BEDROCK_REGION", "sek"), ("BEDROCK_ACCOUNT", "a")], [], [], noFaults⟩ =
      .exec ["aider-ce", "--tui", "--config", pathName 0, "--api-key", "openai=sek"]
        [(0, .text "model: sek\n")] 1 ∧
    pyIn "sek" "model: sek\n" = true := by
  constructor
  · decide
  · decide

/-- Witness for C1: two identical runs whose secret env var carries
different values. -/
theorem secret_confinement_witness :
    secretConfined
      (runWithConfig ⟨true, "/cfg/p.yml", "model: x\napi-key-env: K\n", none,
        [("K", "sek1")], [], [], noFaults⟩)
      (runWithConfig ⟨true, "/cfg/p.yml", "model: x\napi-key-env: K\n", none,
        [("K", "sek2")], [], [], noFaults⟩)
      ("openai" ++ "=" ++ "sek1") ("openai" ++ "=" ++ "sek2") ∧
    (∀ bp, filterProfileLines "model: x\napi-key-env: K\n" bp =
      ((pyLines "model: x\napi-key-env: K\n").filter (fun l =>
        !(pyStartsWith (pyStrip l) "api-key-env:" ||
          pyStartsWith (pyStrip l) "api-key-provider:"))).map (fun line =>
      match bp with
      | some bpath =>
        if pyIn ".bedrock-inference-profiles.json" line then
          pyReplace line ".bedrock-inference-profiles.json" bpath
        else line
      | none => line)) :=
  secret_confinement true "/cfg/p.yml" "model: x\napi-key-env: K\n" none
    [("K", "sek1")] [("K", "sek2")] [] [] noFaults "K" "openai" "sek1" "sek2"
    rfl rfl rfl rfl rfl rfl rfl rfl

end ConfigAider
